import Mathlib

set_option maxHeartbeats 1000000

/-!
Shallow embedding of the turn-based grid combat game engine of this repository:
the game-state manager in `src/server/gameState.js` and the WebSocket message
handlers of `server/index.js` (the transport layer guarding actions and reset).

Conventions of the embedding:
* JavaScript mutation of the singleton state becomes explicit state passing;
  a thrown `Error(msg)` becomes `Except.error msg` (the handlers catch every
  throw and send it back as an `ACTION_INVALID` message, so a throw never
  mutates anything in the original code either).
* Grid coordinates are `Int` in the main model (every reachable position is an
  integer).  A separate rational-coordinate model of `ensureTargetValid` and
  `isPathClear` at the end of the definitions captures the behaviour of the
  code on arbitrary JavaScript numbers, which is needed for the totality
  analysis of the path scan.
* `crypto.randomUUID()` is modelled by an explicit fresh-identifier argument;
  the reachability relation `Reachable` constrains it to be fresh, which is the
  guarantee the UUID generator provides.
* The JavaScript `while` loops of `isPathClear` and `findFirstEntity` are
  modelled with an explicit step budget (`fuel`); a result of `none` at the
  outer level means the loop was still running when the budget ran out, i.e.
  the original loop does not terminate within that many steps.
-/

deriving instance DecidableEq for Except

namespace Jeu

/-- Constant `MAX_PLAYERS` of gameState.js. -/
def MAX_PLAYERS : Nat := 4

/-- Constant `PLAYER_HP` of gameState.js. -/
def PLAYER_HP : Int := 10

/-- Constant `OBSTACLE_HP` of gameState.js. -/
def OBSTACLE_HP : Int := 2

/-- Constant `OBSTACLE_STOCK` of gameState.js. -/
def OBSTACLE_STOCK : Int := 3

/-- Constant `ATTACK_COST` of gameState.js. -/
def ATTACK_COST : Int := 0

/-- Constant `ATTACK_DAMAGE` of gameState.js. -/
def ATTACK_DAMAGE : Int := 2

/-- Constant `MOVE_RANGE` of gameState.js. -/
def MOVE_RANGE : Int := 3

/-- Constant `ATTACK_RANGE` of gameState.js. -/
def ATTACK_RANGE : Int := 2

/-- Constant `ALLOWED_GRID_SIZES` of gameState.js. -/
def ALLOWED_GRID_SIZES : List Int := [9]

/-- A grid coordinate pair `{ x, y }`. -/
structure Pos where
  x : Int
  y : Int
deriving DecidableEq, Repr

/-- Player status strings `"Active"` / `"Defeated"`. -/
inductive PlayerStatus
  | Active
  | Defeated
deriving DecidableEq, Repr

/-- Game status strings `"Lobby"` / `"InProgress"` / `"Finished"`. -/
inductive GameStatus
  | Lobby
  | InProgress
  | Finished
deriving DecidableEq, Repr

/-- A player record as built by `addPlayer` (the informational `userId` field,
which no game logic reads, is omitted).  `position` is `none` when the
JavaScript field is `null` (cleared on defeat). -/
structure Player where
  id : Nat
  pseudo : String
  couleur : String
  pdv : Int
  position : Option Pos
  obstaclesRestants : Int
  status : PlayerStatus
deriving DecidableEq, Repr

/-- An obstacle record as built by `executePlaceObstacle`. -/
structure Obstacle where
  id : Nat
  position : Pos
  pdv : Int
  ownerId : Nat
deriving DecidableEq, Repr

/-- The store: the `state` object of `GameStateManager`. -/
structure GameState where
  gameStatus : GameStatus
  gridSize : Int
  players : List Player
  obstacles : List Obstacle
  currentPlayerTurn : Option Nat
  winner : Option String
  winnerId : Option Nat
deriving DecidableEq, Repr

/-- Method `createInitialState(gridSize)`. -/
def createInitialState (gridSize : Int) : GameState :=
  { gameStatus := .Lobby, gridSize := gridSize, players := [], obstacles := []
    currentPlayerTurn := none, winner := none, winnerId := none }

/-- Method `getPlayerAt(position)`: the first Active player at the cell. -/
def getPlayerAt (s : GameState) (pos : Pos) : Option Player :=
  s.players.find? (fun p => p.status == .Active && p.position == some pos)

/-- Method `getObstacleAt(position)`. -/
def getObstacleAt (s : GameState) (pos : Pos) : Option Obstacle :=
  s.obstacles.find? (fun o => o.position == pos)

/-- Method `isOccupied(position)`. -/
def isOccupied (s : GameState) (pos : Pos) : Bool :=
  (getPlayerAt s pos).isSome || (getObstacleAt s pos).isSome

/-- Method `isStraightLine(a, b)`. -/
def isStraightLine (a b : Pos) : Bool :=
  a.x == b.x || a.y == b.y

/-- Method `distance(a, b)`: Manhattan distance. -/
def distance (a b : Pos) : Int :=
  |a.x - b.x| + |a.y - b.y|

/-- Method `isAdjacent(a, b)`: Chebyshev distance 1 (8-neighbourhood). -/
def isAdjacent (a b : Pos) : Bool :=
  decide (|a.x - b.x| ≤ 1) && decide (|a.y - b.y| ≤ 1) &&
    !(a.x == b.x && a.y == b.y)

/-- The body of the `while` loop of `isPathClear`, with an explicit step budget.
The loop runs while the cursor differs from the target, failing on any occupied
cell, and finally checks the target cell itself; `none` means the budget was
exhausted with the loop still running. -/
def isPathClearGo (s : GameState) (target d : Pos) : Nat → Pos → Option Bool
  | 0, _ => none
  | fuel + 1, p =>
    if p == target then some (!isOccupied s target)
    else if isOccupied s p then some false
    else isPathClearGo s target d fuel ⟨p.x + d.x, p.y + d.y⟩

/-- Method `isPathClear(start, target)`.  The budget `distance + 1` is exactly
enough for the straight-line calls the engine makes (the loop then advances one
cell per iteration until it reaches the target). -/
def isPathClear (s : GameState) (start target : Pos) : Option Bool :=
  let d : Pos := ⟨(target.x - start.x).sign, (target.y - start.y).sign⟩
  isPathClearGo s target d ((distance start target).toNat + 1) ⟨start.x + d.x, start.y + d.y⟩

/-- The tagged `{ type, entity }` result of `findFirstEntity`. -/
inductive Hit
  | player (pl : Player)
  | obstacle (ob : Obstacle)
deriving DecidableEq, Repr

/-- The id of the entity carried by a hit. -/
def Hit.entityId : Hit → Nat
  | .player pl => pl.id
  | .obstacle ob => ob.id

/-- The body of the `while` loop of `findFirstEntity`: while the cursor is in
bounds and within `ATTACK_RANGE` of the start, return the first Active player
or obstacle found, stopping (with no hit) once the target cell itself is passed
without an occupant.  `some none` is the `return null` of the original code;
the outer `none` means the step budget ran out. -/
def findFirstEntityGo (s : GameState) (start target d : Pos) : Nat → Pos → Option (Option Hit)
  | 0, _ => none
  | fuel + 1, p =>
    if 0 ≤ p.x ∧ 0 ≤ p.y ∧ p.x < s.gridSize ∧ p.y < s.gridSize ∧
        distance start p ≤ ATTACK_RANGE then
      match getPlayerAt s p with
      | some pl => some (some (.player pl))
      | none =>
        match getObstacleAt s p with
        | some ob => some (some (.obstacle ob))
        | none =>
          if p == target then some none
          else findFirstEntityGo s start target d fuel ⟨p.x + d.x, p.y + d.y⟩
    else some none

/-- Method `findFirstEntity(start, target)`.  The budget `ATTACK_RANGE + 3`
always suffices: each iteration moves one unit step, so the travelled Manhattan
distance grows by at least one per iteration until the range guard fails. -/
def findFirstEntity (s : GameState) (start target : Pos) : Option (Option Hit) :=
  let d : Pos := ⟨(target.x - start.x).sign, (target.y - start.y).sign⟩
  findFirstEntityGo s start target d (ATTACK_RANGE.toNat + 3) ⟨start.x + d.x, start.y + d.y⟩

/-- JavaScript `Array.prototype.findIndex`, as an `Option` (the `-1` of the
original is restored at the use sites). -/
def findIndex {α : Type} (pred : α → Bool) : List α → Option Nat
  | [] => none
  | a :: rest => if pred a then some 0 else (findIndex pred rest).map (· + 1)

/-- Method `getStartingPositions()`: the four corners in join order. -/
def getStartingPositions (gridSize : Int) : List Pos :=
  [⟨0, 0⟩, ⟨gridSize - 1, 0⟩, ⟨0, gridSize - 1⟩, ⟨gridSize - 1, gridSize - 1⟩]

/-- In-place mutation of the first list element an array `find` located:
replace the first element satisfying `pred` by its image under `f`. -/
def updateFirst {α : Type} (pred : α → Bool) (f : α → α) : List α → List α
  | [] => []
  | a :: rest => if pred a then f a :: rest else a :: updateFirst pred f rest

/-- The mutation `markPlayerDefeated` performs on the player it found (a no-op
on an already Defeated player, otherwise status Defeated and position cleared). -/
def markDefeatedFn (p : Player) : Player :=
  if p.status == .Defeated then p else { p with status := .Defeated, position := none }

/-- Method `markPlayerDefeated(playerId)`, on the player list. -/
def markPlayerDefeatedL (ps : List Player) (pid : Nat) : List Player :=
  updateFirst (fun p => p.id == pid) markDefeatedFn ps

/-- Method `markPlayerDefeated(playerId)`, on the whole store. -/
def markPlayerDefeated (s : GameState) (pid : Nat) : GameState :=
  { s with players := markPlayerDefeatedL s.players pid }

/-- Method `checkVictory()` (the local `active` of the original is inlined). -/
def checkVictory (s : GameState) : GameState :=
  match s.players.filter (fun p => p.status == .Active), s.gameStatus with
  | [a], .InProgress =>
    { s with gameStatus := .Finished, winner := some a.pseudo, winnerId := some a.id }
  | [], .InProgress =>
    { s with gameStatus := .Finished, winner := none, winnerId := none }
  | _, _ => s

/-- Method `cleanupAfterAction()`: prune dead obstacles, mark every player with
non-positive hp as defeated (the `forEach` reads each element's `pdv` and `id`,
which `markPlayerDefeated` never changes, so a left fold over the current list
is exact), then evaluate victory. -/
def cleanupAfterAction (s : GameState) : GameState :=
  let obstacles := s.obstacles.filter (fun o => decide (0 < o.pdv))
  let players := s.players.foldl
    (fun acc p => if p.pdv ≤ 0 then markPlayerDefeatedL acc p.id else acc) s.players
  checkVictory { s with obstacles := obstacles, players := players }

/-- The circular scan of `advanceTurn`: starting after index `idx` (JavaScript
`nextIndex = (nextIndex + 1) % length`), return the index of the first Active
player, giving up after `fuel` probes (the code uses `players.length`). -/
def scanActive (ps : List Player) : Nat → Int → Option Nat
  | 0, _ => none
  | fuel + 1, idx =>
    let len : Int := ps.length
    let next : Int := (idx + 1) % len
    match ps.get? next.toNat with
    | some p => if p.status == .Active then some next.toNat else scanActive ps fuel next
    | none => none

/-- The `currentIndex` of `advanceTurn`: JavaScript `findIndex` returns `-1`
when the turn holder is not in the list. -/
def currentTurnIndex (s : GameState) : Int :=
  match findIndex (fun p => some p.id == s.currentPlayerTurn) s.players with
  | some i => (i : Int)
  | none => -1

/-- Method `advanceTurn()`. -/
def advanceTurn (s : GameState) : GameState :=
  if s.gameStatus ≠ .InProgress then s
  else if (s.players.filter (fun p => p.status == .Active)).length ≤ 1 then checkVictory s
  else
    match scanActive s.players s.players.length (currentTurnIndex s) with
    | some j => { s with currentPlayerTurn := (s.players.get? j).map (fun p => p.id) }
    | none => { s with currentPlayerTurn := none }

/-- Method `requireActivePlayer(playerId)`. -/
def requireActivePlayer (s : GameState) (pid : Nat) : Except String Player :=
  match s.players.find? (fun p => p.id == pid) with
  | none => .error "Joueur introuvable."
  | some player =>
    if player.status ≠ .Active then .error "Joueur déjà éliminé."
    else .ok player

/-- Method `ensureTargetValid(target)` (the `typeof` checks of the original are
vacuous for integer coordinates; the rational model below keeps them in view). -/
def ensureTargetValid (s : GameState) (t : Pos) : Except String Unit :=
  if t.x < 0 ∨ s.gridSize ≤ t.x ∨ t.y < 0 ∨ s.gridSize ≤ t.y then .error "Case hors limites."
  else .ok ()

/-- Method `executeMove(playerId, target)`.  Reading `player.position.x` on a
`null` position would raise a TypeError in JavaScript (caught by the handler);
that unreachable case is the explicit "TypeError" branch. -/
def executeMove (s : GameState) (pid : Nat) (target : Pos) : Except String GameState :=
  match requireActivePlayer s pid with
  | .error m => .error m
  | .ok player =>
  match ensureTargetValid s target with
  | .error m => .error m
  | .ok _ =>
  match player.position with
  | none => .error "TypeError: position is null"
  | some pos =>
  if !isStraightLine pos target then .error "Le déplacement doit être en ligne droite."
  else
  let dist := distance pos target
  if dist = 0 ∨ MOVE_RANGE < dist then .error "La distance maximale est de 3 cases."
  else
  match isPathClear s pos target with
  | some false => .error "Trajet bloqué par un joueur ou un obstacle."
  | none => .error "loop limit reached"
  | some true =>
    let players := updateFirst (fun p => p.id == pid)
      (fun p => { p with position := some target }) s.players
    .ok (advanceTurn (cleanupAfterAction { s with players := players }))

/-- The `explicitTarget` lookup of `executeAttack`: the id of the entity at the
cell the caller named (`getPlayerAt(target) || getObstacleAt(target)`). -/
def explicitTargetId (s : GameState) (target : Pos) : Option Nat :=
  match getPlayerAt s target with
  | some q => some q.id
  | none => (getObstacleAt s target).map (fun o => o.id)

/-- The hit-resolution step of `executeAttack`: damage the struck entity and
record defeat (players) or destruction (obstacles).  `ps` is the player list
after the self-cost step; the struck player object is identified the way
`getPlayerAt` found it (first Active player at its cell). -/
def attackApplyHit (s : GameState) (ps : List Player) : Hit → GameState
  | .player pl =>
    let ps3 := updateFirst (fun q => q.status == .Active && q.position == pl.position)
      (fun q => { q with pdv := q.pdv - ATTACK_DAMAGE }) ps
    let ps4 := if pl.pdv - ATTACK_DAMAGE ≤ 0 then markPlayerDefeatedL ps3 pl.id else ps3
    { s with players := ps4 }
  | .obstacle ob =>
    let obs1 := updateFirst (fun o => o.position == ob.position)
      (fun o => { o with pdv := o.pdv - ATTACK_DAMAGE }) s.obstacles
    let obs2 := if ob.pdv - ATTACK_DAMAGE ≤ 0 then
        obs1.filter (fun o => !(o.id == ob.id))
      else obs1
    { s with players := ps, obstacles := obs2 }

/-- Method `executeAttack(playerId, target)`. -/
def executeAttack (s : GameState) (pid : Nat) (target : Pos) : Except String GameState :=
  match requireActivePlayer s pid with
  | .error m => .error m
  | .ok player =>
  match ensureTargetValid s target with
  | .error m => .error m
  | .ok _ =>
  match player.position with
  | none => .error "TypeError: position is null"
  | some pos =>
  if !isStraightLine pos target then .error "Attaque en ligne droite uniquement."
  else
  let dist := distance pos target
  if dist = 0 ∨ ATTACK_RANGE < dist then .error "La portée maximale est de 2 cases."
  else
  match findFirstEntity s pos target with
  | none => .error "loop limit reached"
  | some none => .error "Aucune cible dans cette direction."
  | some (some hit) =>
    if (explicitTargetId s target).isSome ∧ explicitTargetId s target ≠ some hit.entityId then
      .error "Une entité bloque votre attaque."
    else
      let ps1 := updateFirst (fun p => p.id == pid)
        (fun p => { p with pdv := p.pdv - ATTACK_COST }) s.players
      let ps2 := if player.pdv - ATTACK_COST ≤ 0 then markPlayerDefeatedL ps1 pid else ps1
      .ok (advanceTurn (cleanupAfterAction (attackApplyHit s ps2 hit)))

/-- Method `executePlaceObstacle(playerId, target)`; `freshId` models the
`randomUUID()` of the new obstacle. -/
def executePlaceObstacle (s : GameState) (pid : Nat) (target : Pos) (freshId : Nat) :
    Except String GameState :=
  match requireActivePlayer s pid with
  | .error m => .error m
  | .ok player =>
  match ensureTargetValid s target with
  | .error m => .error m
  | .ok _ =>
  if player.obstaclesRestants ≤ 0 then .error "Plus d'obstacles disponibles."
  else
  match player.position with
  | none => .error "TypeError: position is null"
  | some pos =>
  if !isAdjacent pos target then .error "La case doit être adjacente."
  else if isOccupied s target then .error "Case déjà occupée."
  else
    let obstacles := s.obstacles ++
      [{ id := freshId, position := target, pdv := OBSTACLE_HP, ownerId := player.id }]
    let players := updateFirst (fun p => p.id == pid)
      (fun p => { p with obstaclesRestants := p.obstaclesRestants - 1 }) s.players
    .ok (advanceTurn (cleanupAfterAction { s with obstacles := obstacles, players := players }))

/-- The three action kinds of `handleRequestAction`. -/
inductive ActionKind
  | Move
  | Attack
  | PlaceObstacle
deriving DecidableEq, Repr

/-- Handler `handleRequestAction` of server/index.js, after the transport-level
spectator check: game must be in progress and the caller must hold the turn,
then dispatch on the action kind (every engine throw is caught and reported as
the error outcome). -/
def requestAction (s : GameState) (pid : Nat) (kind : ActionKind) (target : Pos)
    (freshId : Nat) : Except String GameState :=
  if s.gameStatus ≠ .InProgress then .error "Game must be in progress."
  else if s.currentPlayerTurn ≠ some pid then .error "Not your turn."
  else
    match kind with
    | .Move => executeMove s pid target
    | .Attack => executeAttack s pid target
    | .PlaceObstacle => executePlaceObstacle s pid target freshId

/-- JavaScript `String.prototype.trim`, modelled on the character list (the
built-in `String.trim` is not used because its recursion scheme blocks kernel
evaluation). -/
def jsTrim (s : String) : String :=
  ⟨((s.data.dropWhile Char.isWhitespace).reverse.dropWhile Char.isWhitespace).reverse⟩

/-- JavaScript `String.prototype.toUpperCase` (ASCII part), on the character
list. -/
def jsToUpper (s : String) : String :=
  ⟨s.data.map Char.toUpper⟩

/-- One character of the class `[0-9a-fA-F]`. -/
def isHexDigit (c : Char) : Bool :=
  c.isDigit || (decide ('a' ≤ c) && decide (c ≤ 'f')) || (decide ('A' ≤ c) && decide (c ≤ 'F'))

/-- Method `normalizeColor(color)`: trim, match the strict pattern
`^#([0-9a-fA-F]{6})$`, uppercase.  The regex test is rendered on the character
list: a leading `#` followed by exactly six hex digits. -/
def normalizeColor (color : String) : Option String :=
  let t := jsTrim color
  match t.data with
  | '#' :: rest =>
    if rest.length = 6 ∧ rest.all isHexDigit then some (jsToUpper t) else none
  | _ => none

/-- Method `setGridSizeIfLobby(size)`. -/
def setGridSizeIfLobby (s : GameState) (size : Int) : GameState :=
  if s.gameStatus ≠ .Lobby ∨ 0 < s.players.length ∨ ALLOWED_GRID_SIZES.contains size = false then s
  else { s with gridSize := size }

/-- The `if (gridSizeOverride) this.setGridSizeIfLobby(gridSizeOverride)` step
of `addPlayer` (a `0` override is falsy in JavaScript and skipped). -/
def applyGridSizeOverride (s : GameState) (gridSizeOverride : Option Int) : GameState :=
  match gridSizeOverride with
  | some g => if g ≠ 0 then setGridSizeIfLobby s g else s
  | none => s

/-- Method `addPlayer({pseudo, color, gridSizeOverride})`; `freshId` models the
`randomUUID()` of the new player. -/
def addPlayer (s : GameState) (pseudo color : String) (gridSizeOverride : Option Int)
    (freshId : Nat) : Except String (GameState × Player) :=
  if MAX_PLAYERS ≤ s.players.length then .error "Le lobby est complet."
  else if (jsTrim pseudo).length = 0 then .error "Pseudo invalide."
  else
    match normalizeColor color with
    | none => .error "Couleur invalide."
    | some couleur =>
      let s1 := applyGridSizeOverride s gridSizeOverride
      let player : Player :=
        { id := freshId, pseudo := jsTrim pseudo, couleur := couleur, pdv := PLAYER_HP
          position := (getStartingPositions s1.gridSize).get? s1.players.length
          obstaclesRestants := OBSTACLE_STOCK, status := .Active }
      let s2 := { s1 with players := s1.players ++ [player] }
      let s3 :=
        if s2.players.length = MAX_PLAYERS then
          { s2 with gameStatus := .InProgress
                    currentPlayerTurn := s2.players.head?.map (fun p => p.id) }
        else s2
      .ok (s3, player)

/-- Outcome of a join request as the handler reports it. -/
inductive JoinOutcome
  | spectator
  | invalid (msg : String)
  | joined (p : Player)
deriving DecidableEq, Repr

/-- Handler `handleJoin` of server/index.js: full lobby or a started game turns
the caller into a spectator; otherwise `addPlayer` runs and its throw, if any,
is reported as an invalid outcome. -/
def handleJoin (s : GameState) (pseudo color : String) (gridSizeOverride : Option Int)
    (freshId : Nat) : GameState × JoinOutcome :=
  if MAX_PLAYERS ≤ s.players.length ∨ s.gameStatus ≠ .Lobby then (s, .spectator)
  else
    match addPlayer s pseudo color gridSizeOverride freshId with
    | .error m => (s, .invalid m)
    | .ok (s', p) => (s', .joined p)

/-- The body of `removePlayer(playerId)` once the leaving player and its index
have been found: splice, then reset / defeat-and-advance / reseat / plain
removal depending on the phase. -/
def removePlayerAux (s : GameState) (index : Nat) (player : Player) : GameState :=
  if (s.players.eraseIdx index).length = 0 then createInitialState s.gridSize
  else if player.status = .Active ∧ s.gameStatus = .InProgress then
    checkVictory (advanceTurn (markPlayerDefeated
      { s with players := s.players.eraseIdx index } player.id))
  else if s.gameStatus = .Lobby then
    { s with players := (s.players.eraseIdx index).enum.map (fun ip =>
        { ip.2 with position := (getStartingPositions s.gridSize).get? ip.1 }) }
  else { s with players := s.players.eraseIdx index }

/-- Method `removePlayer(playerId)` (reached from the disconnect handler). -/
def removePlayer (s : GameState) (pid : Nat) : GameState :=
  match findIndex (fun p => p.id == pid) s.players with
  | none => s
  | some index =>
    match s.players.get? index with
    | none => s
    | some player => removePlayerAux s index player

/-- Method `resetGame()` with its default argument `state.gridSize || ALLOWED_GRID_SIZES[0]`. -/
def resetGame (s : GameState) : GameState :=
  createInitialState (if s.gridSize = 0 then ALLOWED_GRID_SIZES.headD 0 else s.gridSize)

/-- Handler `handleResetGame` of server/index.js: reset is refused unless the
game is finished. -/
def handleResetGame (s : GameState) : Except String GameState :=
  if s.gameStatus ≠ .Finished then .error "Game is not finished yet."
  else .ok (resetGame s)

/-- The state after an action request (a failed request leaves the store as it
was: the engine throws before mutating anything). -/
def applyAction (s : GameState) (pid : Nat) (kind : ActionKind) (target : Pos)
    (freshId : Nat) : GameState :=
  match requestAction s pid kind target freshId with
  | .ok s' => s'
  | .error _ => s

/-- The state after a join request. -/
def applyJoin (s : GameState) (pseudo color : String) (gridSizeOverride : Option Int)
    (freshId : Nat) : GameState :=
  (handleJoin s pseudo color gridSizeOverride freshId).1

/-- The state after a reset request (refused requests change nothing). -/
def applyReset (s : GameState) : GameState :=
  match handleResetGame s with
  | .ok s' => s'
  | .error _ => s

/-- Freshness of a player id, the guarantee `randomUUID()` provides. -/
@[reducible] def FreshPlayerId (s : GameState) (fid : Nat) : Prop :=
  ∀ p ∈ s.players, p.id ≠ fid

/-- Freshness of an obstacle id. -/
@[reducible] def FreshObstacleId (s : GameState) (fid : Nat) : Prop :=
  ∀ o ∈ s.obstacles, o.id ≠ fid

/-- States reachable through the public operations from the initial store the
`GameStateManager` constructor builds. -/
inductive Reachable : GameState → Prop
  | init : Reachable (createInitialState (ALLOWED_GRID_SIZES.headD 0))
  | join (s : GameState) (pseudo color : String) (g : Option Int) (fid : Nat) :
      Reachable s → FreshPlayerId s fid → Reachable (applyJoin s pseudo color g fid)
  | act (s : GameState) (pid : Nat) (kind : ActionKind) (target : Pos) (fid : Nat) :
      Reachable s → FreshObstacleId s fid → Reachable (applyAction s pid kind target fid)
  | leave (s : GameState) (pid : Nat) : Reachable s → Reachable (removePlayer s pid)
  | reset (s : GameState) : Reachable s → Reachable (applyReset s)

/-- A coordinate pair ranging over arbitrary JavaScript numbers, modelled as
rationals (exact for the halves and small integers involved). -/
structure QPos where
  x : ℚ
  y : ℚ
deriving DecidableEq, Repr

/-- `Math.sign` on rationals. -/
def qsign (v : ℚ) : ℚ :=
  if v < 0 then -1 else if 0 < v then 1 else 0

/-- `ensureTargetValid` on arbitrary number coordinates: only the bounds are
checked (the `typeof` test accepts every number, including non-integers). -/
def ensureTargetValidQ (gridSize : ℚ) (t : QPos) : Bool :=
  !(decide (t.x < 0) || decide (gridSize ≤ t.x) || decide (t.y < 0) || decide (gridSize ≤ t.y))

/-- `isStraightLine` on number coordinates. -/
def isStraightLineQ (a b : QPos) : Bool :=
  a.x == b.x || a.y == b.y

/-- `distance` on number coordinates. -/
def distanceQ (a b : QPos) : ℚ :=
  |a.x - b.x| + |a.y - b.y|

/-- The `while` loop of `isPathClear` on number coordinates, against an
abstract occupancy lookup, with a step budget. -/
def isPathClearQGo (occupied : QPos → Bool) (target d : QPos) : Nat → QPos → Option Bool
  | 0, _ => none
  | fuel + 1, p =>
    if p == target then some (!occupied target)
    else if occupied p then some false
    else isPathClearQGo occupied target d fuel ⟨p.x + d.x, p.y + d.y⟩

/-- `isPathClear` on number coordinates with an explicit step budget: a result
of `none` for every budget means the original loop never terminates. -/
def isPathClearQ (occupied : QPos → Bool) (start target : QPos) (fuel : Nat) : Option Bool :=
  let d : QPos := ⟨qsign (target.x - start.x), qsign (target.y - start.y)⟩
  isPathClearQGo occupied target d fuel ⟨start.x + d.x, start.y + d.y⟩

/-! ### Generic list lemmas about the mutation helpers -/

theorem updateFirst_eq_self {α : Type} (pred : α → Bool) (f : α → α)
    (hf : ∀ x, f x = x) : ∀ l : List α, updateFirst pred f l = l
  | [] => rfl
  | a :: rest => by
    simp only [updateFirst, hf, updateFirst_eq_self pred f hf rest, ite_self]

theorem updateFirst_of_forall_not {α : Type} (pred : α → Bool) (f : α → α) :
    ∀ l : List α, (∀ x ∈ l, pred x = false) → updateFirst pred f l = l
  | [], _ => rfl
  | a :: rest, h => by
    have ha := h a (List.mem_cons_self a rest)
    simp only [updateFirst, ha, Bool.false_eq_true, if_false,
      updateFirst_of_forall_not pred f rest (fun x hx => h x (List.mem_cons_of_mem a hx))]

theorem map_updateFirst {α β : Type} (k : α → β) (pred : α → Bool) (f : α → α)
    (hf : ∀ x, k (f x) = k x) : ∀ l : List α, (updateFirst pred f l).map k = l.map k
  | [] => rfl
  | a :: rest => by
    by_cases h : pred a = true
    · simp [updateFirst, h, hf]
    · simp only [Bool.not_eq_true] at h
      simp [updateFirst, h, map_updateFirst k pred f hf rest]

theorem find?_key_updateFirst {α : Type} (k : α → Nat) (pred : α → Bool) (f : α → α)
    (hk : ∀ x, k (f x) = k x) :
    ∀ l : List α, (l.map k).Nodup → ∀ e, l.find? pred = some e →
      (updateFirst pred f l).find? (fun x => k x == k e) = some (f e)
  | [], _, e, he => by simp at he
  | a :: rest, hnd, e, he => by
    rw [List.map_cons, List.nodup_cons] at hnd
    by_cases h : pred a = true
    · rw [List.find?_cons_of_pos _ h] at he
      injection he with he
      subst he
      simp [updateFirst, h, List.find?_cons_of_pos, hk]
    · simp only [Bool.not_eq_true] at h
      rw [List.find?_cons_of_neg _ (by simp [h])] at he
      have hmem : e ∈ rest := List.mem_of_find?_eq_some he
      have hne : k a ≠ k e := fun hcontra => hnd.1 (hcontra ▸ List.mem_map_of_mem k hmem)
      simp only [updateFirst, h, Bool.false_eq_true, if_false]
      rw [List.find?_cons_of_neg _ (by simp [hne])]
      exact find?_key_updateFirst k pred f hk rest hnd.2 e he

theorem find?_updateFirst_same_key {α : Type} (k : α → Nat) (a : Nat) (f : α → α)
    (hk : ∀ x, k (f x) = k x) :
    ∀ l : List α, (updateFirst (fun x => k x == a) f l).find? (fun x => k x == a)
      = (l.find? (fun x => k x == a)).map f
  | [] => rfl
  | b :: rest => by
    by_cases h : k b = a
    · simp [updateFirst, h, List.find?_cons_of_pos, hk]
    · have hb : (k b == a) = false := by simp [h]
      simp only [updateFirst, hb, Bool.false_eq_true, if_false]
      rw [List.find?_cons_of_neg _ (by simp [h]), List.find?_cons_of_neg _ (by simp [h])]
      exact find?_updateFirst_same_key k a f hk rest

theorem find?_updateFirst_other_key {α : Type} (k : α → Nat) (a b : Nat) (f : α → α)
    (hk : ∀ x, k (f x) = k x) (hne : b ≠ a) :
    ∀ l : List α, (updateFirst (fun x => k x == a) f l).find? (fun x => k x == b)
      = l.find? (fun x => k x == b)
  | [] => rfl
  | c :: rest => by
    by_cases h : k c = a
    · have hcb : k c ≠ b := by intro hh; exact hne (by omega)
      have hfcb : k (f c) ≠ b := by rw [hk]; exact hcb
      have hc : (k c == a) = true := by simp [h]
      simp only [updateFirst, hc, if_true]
      rw [List.find?_cons_of_neg _ (by simp [hfcb]), List.find?_cons_of_neg _ (by simp [hcb])]
    · have hc : (k c == a) = false := by simp [h]
      simp only [updateFirst, hc, Bool.false_eq_true, if_false]
      by_cases h2 : k c = b
      · rw [List.find?_cons_of_pos _ (by simp [h2]), List.find?_cons_of_pos _ (by simp [h2])]
      · rw [List.find?_cons_of_neg _ (by simp [h2]), List.find?_cons_of_neg _ (by simp [h2])]
        exact find?_updateFirst_other_key k a b f hk hne rest

theorem eq_of_find?_key_nodup {α : Type} (k : α → Nat) :
    ∀ l : List α, (l.map k).Nodup → ∀ e, l.find? (fun x => k x == k e) = some e →
      ∀ q ∈ l, k q = k e → q = e
  | [], _, e, he, _, _, _ => by simp at he
  | a :: rest, hnd, e, he, q, hq, hkq => by
    rw [List.map_cons, List.nodup_cons] at hnd
    by_cases h : k a = k e
    · rw [List.find?_cons_of_pos _ (by simp [h])] at he
      injection he with he
      subst he
      rcases List.mem_cons.1 hq with hq | hq
      · exact hq
      · exact absurd (hkq ▸ List.mem_map_of_mem k hq) hnd.1
    · rw [List.find?_cons_of_neg _ (by simp [h])] at he
      rcases List.mem_cons.1 hq with hq | hq
      · exact absurd (hq ▸ hkq) h
      · exact eq_of_find?_key_nodup k rest hnd.2 e he q hq hkq

theorem find?_filter_of_find? {α : Type} (pred q : α → Bool) :
    ∀ l : List α, ∀ e, l.find? pred = some e → q e = true →
      (l.filter q).find? pred = some e
  | [], e, he, _ => by simp at he
  | a :: rest, e, he, hqe => by
    by_cases h : pred a = true
    · rw [List.find?_cons_of_pos _ h] at he
      injection he with he
      subst he
      rw [List.filter_cons_of_pos hqe, List.find?_cons_of_pos _ h]
    · simp only [Bool.not_eq_true] at h
      rw [List.find?_cons_of_neg _ (by simp [h])] at he
      by_cases hqa : q a = true
      · rw [List.filter_cons_of_pos hqa, List.find?_cons_of_neg _ (by simp [h])]
        exact find?_filter_of_find? pred q rest e he hqe
      · rw [List.filter_cons_of_neg (by simpa using hqa)]
        exact find?_filter_of_find? pred q rest e he hqe

theorem find?_filter_of_none {α : Type} (pred q : α → Bool) (l : List α)
    (h : l.find? pred = none) : (l.filter q).find? pred = none := by
  rw [List.find?_eq_none] at h ⊢
  intro x hx
  exact h x (List.mem_of_mem_filter hx)

theorem findIndex_eq_none_iff {α : Type} (pred : α → Bool) :
    ∀ l : List α, findIndex pred l = none ↔ ∀ x ∈ l, pred x = false
  | [] => by simp [findIndex]
  | a :: rest => by
    by_cases h : pred a = true
    · simp [findIndex, h]
    · simp only [Bool.not_eq_true] at h
      simp [findIndex, h, findIndex_eq_none_iff pred rest]

theorem findIndex_get? {α : Type} (pred : α → Bool) :
    ∀ l : List α, ∀ j, findIndex pred l = some j →
      ∃ e, l.get? j = some e ∧ l.find? pred = some e
  | [], j, hj => by simp [findIndex] at hj
  | a :: rest, j, hj => by
    by_cases h : pred a = true
    · simp only [findIndex, h, if_pos rfl] at hj
      injection hj with hj
      subst hj
      exact ⟨a, rfl, List.find?_cons_of_pos _ h⟩
    · simp only [Bool.not_eq_true] at h
      simp only [findIndex, h, Bool.false_eq_true, if_false, Option.map_eq_some'] at hj
      obtain ⟨j', hj', rfl⟩ := hj
      obtain ⟨e, hget, hfind⟩ := findIndex_get? pred rest j' hj'
      exact ⟨e, by simpa using hget, by rw [List.find?_cons_of_neg _ (by simp [h])]; exact hfind⟩

theorem find?_findIndex {α : Type} (pred : α → Bool) :
    ∀ l : List α, ∀ e, l.find? pred = some e →
      ∃ j, findIndex pred l = some j ∧ l.get? j = some e
  | [], e, he => by simp at he
  | a :: rest, e, he => by
    by_cases h : pred a = true
    · rw [List.find?_cons_of_pos _ h] at he
      injection he with he
      subst he
      exact ⟨0, by simp [findIndex, h], rfl⟩
    · simp only [Bool.not_eq_true] at h
      rw [List.find?_cons_of_neg _ (by simp [h])] at he
      obtain ⟨j, hj, hget⟩ := find?_findIndex pred rest e he
      exact ⟨j + 1, by simp [findIndex, h, hj], by simpa using hget⟩

theorem findIndex_lt_length {α : Type} (pred : α → Bool) :
    ∀ l : List α, ∀ j, findIndex pred l = some j → j < l.length
  | [], j, hj => by simp [findIndex] at hj
  | a :: rest, j, hj => by
    by_cases h : pred a = true
    · simp only [findIndex, h, if_pos rfl] at hj
      injection hj with hj
      subst hj
      simp
    · simp only [Bool.not_eq_true] at h
      simp only [findIndex, h, Bool.false_eq_true, if_false, Option.map_eq_some'] at hj
      obtain ⟨j', hj', rfl⟩ := hj
      have := findIndex_lt_length pred rest j' hj'
      simp only [List.length_cons]
      omega

theorem mem_eraseIdx_of_ne {α : Type} :
    ∀ (l : List α) (i : Nat) (e q : α), l.get? i = some e → q ∈ l → q ≠ e →
      q ∈ l.eraseIdx i
  | [], i, e, q, hget, _, _ => by simp at hget
  | a :: rest, 0, e, q, hget, hq, hne => by
    injection hget with hget
    subst hget
    rcases List.mem_cons.1 hq with hq | hq
    · exact absurd hq hne
    · simpa [List.eraseIdx] using hq
  | a :: rest, i + 1, e, q, hget, hq, hne => by
    simp only [List.get?_cons_succ] at hget
    rcases List.mem_cons.1 hq with hq | hq
    · simp [List.eraseIdx, hq]
    · simp only [List.eraseIdx, List.mem_cons]
      exact Or.inr (mem_eraseIdx_of_ne rest i e q hget hq hne)

theorem map_eraseIdx {α β : Type} (f : α → β) :
    ∀ (l : List α) (i : Nat), (l.eraseIdx i).map f = (l.map f).eraseIdx i
  | [], _ => by simp
  | a :: rest, 0 => by simp [List.eraseIdx]
  | a :: rest, i + 1 => by simp [List.eraseIdx, map_eraseIdx f rest i]

theorem nodup_eraseIdx {α : Type} [DecidableEq α] :
    ∀ (l : List α) (i : Nat), l.Nodup → (l.eraseIdx i).Nodup :=
  fun l i h => h.sublist (List.eraseIdx_sublist l i)

/-! ### Field-preservation lemmas for the lifecycle controller -/

theorem markDefeatedFn_id (p : Player) : (markDefeatedFn p).id = p.id := by
  unfold markDefeatedFn; split <;> rfl

theorem markDefeatedFn_pdv (p : Player) : (markDefeatedFn p).pdv = p.pdv := by
  unfold markDefeatedFn; split <;> rfl

theorem markPlayerDefeatedL_map_id (ps : List Player) (pid : Nat) :
    (markPlayerDefeatedL ps pid).map (fun p => p.id) = ps.map (fun p => p.id) :=
  map_updateFirst _ _ _ markDefeatedFn_id ps

theorem markPlayerDefeatedL_find_pdv (ps : List Player) (qid a : Nat) :
    ((markPlayerDefeatedL ps qid).find? (fun p => p.id == a)).map (fun p => p.pdv)
      = (ps.find? (fun p => p.id == a)).map (fun p => p.pdv) := by
  unfold markPlayerDefeatedL
  by_cases h : qid = a
  · subst h
    rw [find?_updateFirst_same_key (fun p => p.id) qid markDefeatedFn markDefeatedFn_id ps]
    cases ps.find? (fun p => p.id == qid) <;> simp [markDefeatedFn_pdv]
  · rw [find?_updateFirst_other_key (fun p => p.id) qid a markDefeatedFn markDefeatedFn_id
      (fun hh => h hh.symm) ps]

theorem cleanupFold_map_id :
    ∀ (qs acc : List Player),
      ((qs.foldl (fun acc p => if p.pdv ≤ 0 then markPlayerDefeatedL acc p.id else acc) acc).map
        (fun p => p.id)) = acc.map (fun p => p.id)
  | [], _ => rfl
  | q :: qs, acc => by
    simp only [List.foldl_cons]
    rw [cleanupFold_map_id qs]
    split
    · exact markPlayerDefeatedL_map_id acc q.id
    · rfl

theorem cleanupFold_find_pdv (a : Nat) :
    ∀ (qs acc : List Player),
      (((qs.foldl (fun acc p => if p.pdv ≤ 0 then markPlayerDefeatedL acc p.id else acc) acc).find?
        (fun p => p.id == a)).map (fun p => p.pdv))
        = ((acc.find? (fun p => p.id == a)).map (fun p => p.pdv))
  | [], _ => rfl
  | q :: qs, acc => by
    simp only [List.foldl_cons]
    rw [cleanupFold_find_pdv a qs]
    split
    · exact markPlayerDefeatedL_find_pdv acc q.id a
    · rfl

theorem cleanupFold_find_of_protected (a : Nat) :
    ∀ (qs acc : List Player), (∀ q ∈ qs, q.pdv ≤ 0 → q.id ≠ a) →
      ((qs.foldl (fun acc p => if p.pdv ≤ 0 then markPlayerDefeatedL acc p.id else acc) acc).find?
        (fun p => p.id == a)) = acc.find? (fun p => p.id == a)
  | [], _, _ => rfl
  | q :: qs, acc, h => by
    simp only [List.foldl_cons]
    rw [cleanupFold_find_of_protected a qs _ (fun x hx => h x (List.mem_cons_of_mem q hx))]
    by_cases hq : q.pdv ≤ 0
    · rw [if_pos hq]
      exact find?_updateFirst_other_key (fun p => p.id) q.id a markDefeatedFn markDefeatedFn_id
        (Ne.symm (h q (List.mem_cons_self q qs) hq)) acc
    · rw [if_neg hq]

theorem checkVictory_players (s : GameState) : (checkVictory s).players = s.players := by
  unfold checkVictory; split <;> rfl

theorem checkVictory_obstacles (s : GameState) : (checkVictory s).obstacles = s.obstacles := by
  unfold checkVictory; split <;> rfl

theorem checkVictory_turn (s : GameState) :
    (checkVictory s).currentPlayerTurn = s.currentPlayerTurn := by
  unfold checkVictory; split <;> rfl

theorem checkVictory_cases (s : GameState) :
    checkVictory s = s ∨ (checkVictory s).gameStatus = .Finished := by
  unfold checkVictory; split
  · right; rfl
  · right; rfl
  · left; rfl

theorem checkVictory_not_lobby (s : GameState) (h : s.gameStatus ≠ .Lobby) :
    (checkVictory s).gameStatus ≠ .Lobby := by
  rcases checkVictory_cases s with hc | hc
  · rw [hc]; exact h
  · rw [hc]; simp

theorem checkVictory_eq_self_of_inprogress (s : GameState)
    (h : (checkVictory s).gameStatus = .InProgress) : checkVictory s = s := by
  rcases checkVictory_cases s with hc | hc
  · exact hc
  · rw [hc] at h; cases h

theorem checkVictory_finished_of_few (s : GameState) (hst : s.gameStatus = .InProgress)
    (h : (s.players.filter (fun p => p.status == .Active)).length ≤ 1) :
    (checkVictory s).gameStatus = .Finished := by
  have hcase : s.players.filter (fun p => p.status == .Active) = [] ∨
      ∃ a, s.players.filter (fun p => p.status == .Active) = [a] := by
    match hl : s.players.filter (fun p => p.status == .Active) with
    | [] => exact Or.inl hl
    | [a] => exact Or.inr ⟨a, hl⟩
    | a :: b :: rest => rw [hl] at h; simp at h
  rcases hcase with hf | ⟨a, hf⟩ <;> unfold checkVictory <;> rw [hf, hst] <;> rfl

theorem advanceTurn_players (s : GameState) : (advanceTurn s).players = s.players := by
  unfold advanceTurn
  split
  · rfl
  · split
    · exact checkVictory_players s
    · split <;> first | rfl | (split <;> rfl)

theorem advanceTurn_obstacles (s : GameState) : (advanceTurn s).obstacles = s.obstacles := by
  unfold advanceTurn
  split
  · rfl
  · split
    · exact checkVictory_obstacles s
    · split <;> first | rfl | (split <;> rfl)

theorem advanceTurn_not_lobby (s : GameState) (h : s.gameStatus ≠ .Lobby) :
    (advanceTurn s).gameStatus ≠ .Lobby := by
  unfold advanceTurn
  split
  · exact h
  · split
    · exact checkVictory_not_lobby s h
    · split <;> simpa using h

/-! ### The circular scan of `advanceTurn` -/

theorem scanActive_some (ps : List Player) :
    ∀ fuel idx j, scanActive ps fuel idx = some j →
      ∃ p, ps.get? j = some p ∧ p.status = .Active
  | 0, idx, j, h => by simp [scanActive] at h
  | fuel + 1, idx, j, h => by
    simp only [scanActive] at h
    split at h
    · rename_i p heq
      split at h
      · rename_i hact
        injection h with h
        subst h
        exact ⟨p, heq, by simpa using hact⟩
      · exact scanActive_some ps fuel _ j h
    · cases h

theorem scanActive_linear (ps : List Player) :
    ∀ fuel i, i + fuel ≤ ps.length →
      scanActive ps fuel ((i : Int) - 1)
        = (findIndex (fun p => p.status == .Active) ((ps.drop i).take fuel)).map (· + i)
  | 0, i, _ => by simp [scanActive, findIndex]
  | fuel + 1, i, h => by
    have hi : i < ps.length := by omega
    have e1 : ((i : Int) - 1 + 1) % ((ps.length : Nat) : Int) = (i : Int) := by
      have e : (i : Int) - 1 + 1 = (i : Int) := by ring
      rw [e, Int.emod_eq_of_lt (by positivity) (by exact_mod_cast hi)]
    have hget : ps.get? i = some ps[i] := by
      rw [List.get?_eq_getElem?, List.getElem?_eq_getElem hi]
    have hdrop : ps.drop i = ps[i] :: ps.drop (i + 1) := List.drop_eq_getElem_cons hi
    simp only [scanActive]
    rw [e1, Int.toNat_natCast, hget, hdrop, List.take_succ_cons]
    by_cases hact : ps[i].status = .Active
    · simp [findIndex, hact]
    · have hactb : (ps[i].status == .Active) = false := by simp [hact]
      simp only [hactb, Bool.false_eq_true, if_false, findIndex]
      have e2 : (i : Int) = ((i + 1 : Nat) : Int) - 1 := by push_cast; ring
      rw [e2, scanActive_linear ps fuel (i + 1) (by omega)]
      cases hfi : findIndex (fun p => p.status == .Active) ((ps.drop (i + 1)).take fuel)
      · simp [hfi]
      · simp only [hfi, Option.map_some']
        congr 1
        omega

theorem scanActive_split (ps : List Player) :
    ∀ f1 f2 i, i + f1 ≤ ps.length →
      scanActive ps (f1 + f2) ((i : Int) - 1)
        = (match scanActive ps f1 ((i : Int) - 1) with
           | some j => some j
           | none => scanActive ps f2 (((i + f1 : Nat) : Int) - 1))
  | 0, f2, i, _ => by simp [scanActive]
  | f1 + 1, f2, i, h => by
    have hi : i < ps.length := by omega
    have e1 : ((i : Int) - 1 + 1) % ((ps.length : Nat) : Int) = (i : Int) := by
      have e : (i : Int) - 1 + 1 = (i : Int) := by ring
      rw [e, Int.emod_eq_of_lt (by positivity) (by exact_mod_cast hi)]
    have hget : ps.get? i = some ps[i] := by
      rw [List.get?_eq_getElem?, List.getElem?_eq_getElem hi]
    have hsucc : f1 + 1 + f2 = (f1 + f2) + 1 := by omega
    rw [hsucc]
    simp only [scanActive]
    rw [e1, Int.toNat_natCast, hget]
    by_cases hact : ps[i].status = .Active
    · simp [hact]
    · have hactb : (ps[i].status == .Active) = false := by simp [hact]
      simp only [hactb, Bool.false_eq_true, if_false]
      have e2 : (i : Int) = ((i + 1 : Nat) : Int) - 1 := by push_cast; ring
      rw [e2, scanActive_split ps f1 f2 (i + 1) (by omega)]
      have e3 : i + 1 + f1 = i + (f1 + 1) := by omega
      rw [e3]

theorem scanActive_wrap (ps : List Player) (hlen : 0 < ps.length) :
    ∀ fuel, scanActive ps fuel ((ps.length : Int) - 1) = scanActive ps fuel (-1)
  | 0 => rfl
  | fuel + 1 => by
    simp only [scanActive]
    have e1 : ((ps.length : Int) - 1 + 1) % ((ps.length : Nat) : Int) = 0 := by
      have e : (ps.length : Int) - 1 + 1 = (ps.length : Int) := by ring
      rw [e, Int.emod_self]
    have e2 : ((-1 : Int) + 1) % ((ps.length : Nat) : Int) = 0 := by norm_num
    rw [e1, e2]

theorem findIndex_isSome_of_mem {α : Type} (pred : α → Bool) (l : List α)
    (x : α) (hx : x ∈ l) (hpx : pred x = true) : (findIndex pred l).isSome := by
  cases hfi : findIndex pred l
  · rw [findIndex_eq_none_iff] at hfi
    rw [hfi x hx] at hpx
    cases hpx
  · rfl

theorem scanActive_isSome_of_active (ps : List Player)
    (hex : ∃ p ∈ ps, p.status = .Active) (idx : Int) (h1 : -1 ≤ idx)
    (h2 : idx < (ps.length : Int)) : (scanActive ps ps.length idx).isSome := by
  obtain ⟨p0, hp0, hp0a⟩ := hex
  have hlen : 0 < ps.length := List.length_pos_of_mem hp0
  rcases eq_or_lt_of_le h1 with hneg | hpos
  · have hidx : idx = ((0 : Nat) : Int) - 1 := by omega
    rw [hidx, scanActive_linear ps ps.length 0 (by omega)]
    simp only [List.drop_zero, List.take_length]
    have hsome := findIndex_isSome_of_mem (fun p => p.status == .Active) ps p0 hp0 (by simp [hp0a])
    cases hfi : findIndex (fun p => p.status == .Active) ps
    · rw [hfi] at hsome; cases hsome
    · simp [hfi]
  · have h0 : (0 : Int) ≤ idx := by omega
    have hidx : idx = (idx.toNat : Int) := (Int.toNat_of_nonneg h0).symm
    have hi0len : idx.toNat < ps.length := by omega
    have hidx2 : idx = (((idx.toNat + 1 : Nat)) : Int) - 1 := by push_cast; omega
    have hsplitlen : ps.length = (ps.length - 1 - idx.toNat) + (idx.toNat + 1) := by omega
    rw [hidx2, hsplitlen,
      scanActive_split ps (ps.length - 1 - idx.toNat) (idx.toNat + 1) (idx.toNat + 1) (by omega)]
    cases hs1 : scanActive ps (ps.length - 1 - idx.toNat) (((idx.toNat + 1 : Nat) : Int) - 1) with
    | some j => simp [hs1]
    | none =>
      simp only [hs1]
      rw [scanActive_linear ps (ps.length - 1 - idx.toNat) (idx.toNat + 1) (by omega)] at hs1
      have hseg : (ps.drop (idx.toNat + 1)).take (ps.length - 1 - idx.toNat)
          = ps.drop (idx.toNat + 1) := by
        have e5 : ps.length - 1 - idx.toNat = (ps.drop (idx.toNat + 1)).length := by
          rw [List.length_drop]; omega
        rw [e5, List.take_length]
      rw [hseg] at hs1
      have hnone2 : findIndex (fun p => p.status == .Active) (ps.drop (idx.toNat + 1)) = none := by
        cases hfi : findIndex (fun p => p.status == .Active) (ps.drop (idx.toNat + 1))
        · rfl
        · rw [hfi] at hs1; cases hs1
      have e4 : idx.toNat + 1 + (ps.length - 1 - idx.toNat) = ps.length := by omega
      rw [e4, scanActive_wrap ps hlen]
      have em1 : (-1 : Int) = ((0 : Nat) : Int) - 1 := by norm_num
      rw [em1, scanActive_linear ps (idx.toNat + 1) 0 (by omega)]
      simp only [List.drop_zero]
      cases hfi2 : findIndex (fun p => p.status == .Active) (ps.take (idx.toNat + 1))
      · exfalso
        have hsplitps := List.take_append_drop (idx.toNat + 1) ps
        rw [findIndex_eq_none_iff] at hfi2 hnone2
        have hmem := hp0
        rw [← hsplitps, List.mem_append] at hmem
        rcases hmem with hm | hm
        · have := hfi2 p0 hm
          simp [hp0a] at this
        · have := hnone2 p0 hm
          simp [hp0a] at this
      · simp [hfi2]

/-- After `advanceTurn`, a game that is (still) in progress has an Active,
present turn holder: the scan always finds one because at least two Active
players exist whenever the scan runs. -/
theorem advanceTurn_inprogress_turn (s : GameState)
    (h : (advanceTurn s).gameStatus = .InProgress) :
    ∃ p ∈ s.players, (advanceTurn s).currentPlayerTurn = some p.id ∧ p.status = .Active := by
  by_cases h1 : s.gameStatus ≠ .InProgress
  · rw [advanceTurn, if_pos h1] at h
    exact absurd h h1
  · push_neg at h1
    by_cases h2 : (s.players.filter (fun p => p.status == .Active)).length ≤ 1
    · rw [advanceTurn, if_neg (by simp [h1]), if_pos h2] at h
      rw [checkVictory_finished_of_few s h1 h2] at h
      cases h
    · have hex : ∃ p ∈ s.players, p.status = .Active := by
        push_neg at h2
        have hne : s.players.filter (fun p => p.status == .Active) ≠ [] := by
          intro hnil
          rw [hnil] at h2
          simp at h2
        obtain ⟨q, hq⟩ := List.exists_mem_of_ne_nil _ hne
        have := List.mem_filter.1 hq
        exact ⟨q, this.1, by simpa using this.2⟩
      have hplen : 0 < s.players.length := by
        obtain ⟨p0, hp0, _⟩ := hex
        exact List.length_pos_of_mem hp0
      have hbounds : -1 ≤ currentTurnIndex s ∧
          currentTurnIndex s < (s.players.length : Int) := by
        unfold currentTurnIndex
        cases hfi : findIndex (fun p => some p.id == s.currentPlayerTurn) s.players with
        | none => constructor <;> simp <;> omega
        | some i =>
          have := findIndex_lt_length _ s.players i hfi
          constructor
          · simp only []; omega
          · simp only []; exact_mod_cast this
      have hsome := scanActive_isSome_of_active s.players hex _ hbounds.1 hbounds.2
      simp only [advanceTurn, if_neg (by simp [h1] : ¬s.gameStatus ≠ GameStatus.InProgress),
        if_neg h2] at h ⊢
      cases hscan : scanActive s.players s.players.length (currentTurnIndex s) with
      | none => rw [hscan] at hsome; cases hsome
      | some j =>
        obtain ⟨p, hget, hact⟩ := scanActive_some s.players _ _ j hscan
        refine ⟨p, List.get?_mem hget, ?_, hact⟩
        have hget2 : s.players[j]? = some p := by rw [← List.get?_eq_getElem?]; exact hget
        simp [hget2]

/-! ### Shape of a successful action and the turn invariant -/

theorem map_id_ite_markDefeated (c : Prop) [Decidable c] (ps : List Player) (a : Nat) :
    ((if c then markPlayerDefeatedL ps a else ps).map (fun p => p.id)) = ps.map (fun p => p.id) := by
  split
  · exact markPlayerDefeatedL_map_id ps a
  · rfl

theorem cleanupAfterAction_players_map_id (s : GameState) :
    (cleanupAfterAction s).players.map (fun p => p.id) = s.players.map (fun p => p.id) := by
  unfold cleanupAfterAction
  rw [checkVictory_players]
  exact cleanupFold_map_id s.players s.players

theorem cleanupAfterAction_obstacles (s : GameState) :
    (cleanupAfterAction s).obstacles = s.obstacles.filter (fun o => decide (0 < o.pdv)) := by
  unfold cleanupAfterAction
  rw [checkVictory_obstacles]

theorem cleanupAfterAction_not_lobby (s : GameState) (h : s.gameStatus ≠ .Lobby) :
    (cleanupAfterAction s).gameStatus ≠ .Lobby := by
  unfold cleanupAfterAction
  exact checkVictory_not_lobby _ h

/-- Every action that succeeds ends with cleanup and turn advance, having
mutated only player fields and obstacles in between: ids, game status and the
turn reference are as before the action. -/
theorem requestAction_ok_shape (s : GameState) (pid : Nat) (kind : ActionKind) (target : Pos)
    (fid : Nat) (s' : GameState) (h : requestAction s pid kind target fid = .ok s') :
    ∃ mid : GameState, s' = advanceTurn (cleanupAfterAction mid) ∧
      mid.players.map (fun p => p.id) = s.players.map (fun p => p.id) ∧
      mid.gameStatus = s.gameStatus ∧
      mid.currentPlayerTurn = s.currentPlayerTurn := by
  unfold requestAction at h
  split at h
  · cases h
  · split at h
    · cases h
    · cases kind with
      | Move =>
        simp only [executeMove] at h
        split at h
        · cases h
        · split at h
          · cases h
          · split at h
            · cases h
            · split at h
              · cases h
              · split at h
                · cases h
                · split at h
                  · cases h
                  · cases h
                  · injection h with h
                    refine ⟨_, h.symm, ?_, rfl, rfl⟩
                    dsimp only
                    exact map_updateFirst (fun p : Player => p.id) (fun p : Player => p.id == pid)
                      (fun p : Player => { p with position := some target }) (fun x => rfl) s.players
      | Attack =>
        simp only [executeAttack] at h
        split at h
        · cases h
        · split at h
          · cases h
          · split at h
            · cases h
            · split at h
              · cases h
              · split at h
                · cases h
                · split at h
                  · cases h
                  · cases h
                  · rename_i hit heq
                    split at h
                    · cases h
                    · injection h with h
                      refine ⟨_, h.symm, ?_, ?_, ?_⟩
                      · cases hit with
                        | player pl =>
                          simp only [attackApplyHit]
                          rw [map_id_ite_markDefeated,
                            map_updateFirst (fun p : Player => p.id)
                              (fun q : Player => q.status == PlayerStatus.Active && q.position == pl.position)
                              (fun q : Player => { q with pdv := q.pdv - ATTACK_DAMAGE }) (fun x => rfl),
                            map_id_ite_markDefeated,
                            map_updateFirst (fun p : Player => p.id) (fun p : Player => p.id == pid)
                              (fun p : Player => { p with pdv := p.pdv - ATTACK_COST }) (fun x => rfl)]
                        | obstacle ob =>
                          simp only [attackApplyHit]
                          rw [map_id_ite_markDefeated,
                            map_updateFirst (fun p : Player => p.id) (fun p : Player => p.id == pid)
                              (fun p : Player => { p with pdv := p.pdv - ATTACK_COST }) (fun x => rfl)]
                      · cases hit <;> simp only [attackApplyHit]
                      · cases hit <;> simp only [attackApplyHit]
      | PlaceObstacle =>
        simp only [executePlaceObstacle] at h
        split at h
        · cases h
        · split at h
          · cases h
          · split at h
            · cases h
            · split at h
              · cases h
              · split at h
                · cases h
                · split at h
                  · cases h
                  · injection h with h
                    refine ⟨_, h.symm, ?_, rfl, rfl⟩
                    dsimp only
                    exact map_updateFirst (fun p : Player => p.id) (fun p : Player => p.id == pid)
                      (fun p : Player => { p with obstaclesRestants := p.obstaclesRestants - 1 })
                      (fun x => rfl) s.players

/-- The turn/identity invariant that every public operation preserves:
player ids are distinct (fresh UUIDs); in the Lobby nobody holds the turn and
everybody is Active; while the game is in progress the turn holder is an
Active, present player. -/
def TurnInv (s : GameState) : Prop :=
  (s.players.map (fun p => p.id)).Nodup ∧
  (s.gameStatus = .Lobby → s.currentPlayerTurn = none ∧ ∀ p ∈ s.players, p.status = .Active) ∧
  (s.gameStatus = .InProgress →
    ∃ p ∈ s.players, s.currentPlayerTurn = some p.id ∧ p.status = .Active)

theorem turnInv_initial (g : Int) : TurnInv (createInitialState g) := by
  refine ⟨by simp [createInitialState], fun _ => ⟨rfl, fun p hp => absurd hp (by simp [createInitialState])⟩, fun h => ?_⟩
  cases h

theorem turnInv_requestAction (s : GameState) (pid : Nat) (kind : ActionKind) (target : Pos)
    (fid : Nat) (hInv : TurnInv s) : TurnInv (applyAction s pid kind target fid) := by
  unfold applyAction
  cases hr : requestAction s pid kind target fid with
  | error m => exact hInv
  | ok s' =>
    obtain ⟨mid, rfl, hids, hstat, _⟩ := requestAction_ok_shape s pid kind target fid s' hr
    have hprog : s.gameStatus = .InProgress := by
      by_contra hc
      unfold requestAction at hr
      rw [if_pos hc] at hr
      cases hr
    refine ⟨?_, ?_, ?_⟩
    · rw [advanceTurn_players, cleanupAfterAction_players_map_id, hids]
      exact hInv.1
    · intro hlob
      exact absurd hlob (advanceTurn_not_lobby _ (cleanupAfterAction_not_lobby _
        (by rw [hstat, hprog]; simp)))
    · intro hpro
      obtain ⟨p, hp, ht, ha⟩ := advanceTurn_inprogress_turn (cleanupAfterAction mid) hpro
      exact ⟨p, by rw [advanceTurn_players]; exact hp, ht, ha⟩

theorem setGridSizeIfLobby_players (s : GameState) (size : Int) :
    (setGridSizeIfLobby s size).players = s.players := by
  unfold setGridSizeIfLobby; split <;> rfl

theorem setGridSizeIfLobby_gameStatus (s : GameState) (size : Int) :
    (setGridSizeIfLobby s size).gameStatus = s.gameStatus := by
  unfold setGridSizeIfLobby; split <;> rfl

theorem setGridSizeIfLobby_turn (s : GameState) (size : Int) :
    (setGridSizeIfLobby s size).currentPlayerTurn = s.currentPlayerTurn := by
  unfold setGridSizeIfLobby; split <;> rfl

theorem applyGridSizeOverride_players (s : GameState) (g : Option Int) :
    (applyGridSizeOverride s g).players = s.players := by
  unfold applyGridSizeOverride
  split
  · split
    · exact setGridSizeIfLobby_players s _
    · rfl
  · rfl

theorem applyGridSizeOverride_gameStatus (s : GameState) (g : Option Int) :
    (applyGridSizeOverride s g).gameStatus = s.gameStatus := by
  unfold applyGridSizeOverride
  split
  · split
    · exact setGridSizeIfLobby_gameStatus s _
    · rfl
  · rfl

theorem applyGridSizeOverride_turn (s : GameState) (g : Option Int) :
    (applyGridSizeOverride s g).currentPlayerTurn = s.currentPlayerTurn := by
  unfold applyGridSizeOverride
  split
  · split
    · exact setGridSizeIfLobby_turn s _
    · rfl
  · rfl

theorem nodup_append_fresh (ps : List Player) (newp : Player)
    (hnd : (ps.map (fun p => p.id)).Nodup) (hfresh : ∀ p ∈ ps, p.id ≠ newp.id) :
    ((ps ++ [newp]).map (fun p => p.id)).Nodup := by
  rw [List.map_append, List.nodup_append]
  refine ⟨hnd, by simp, ?_⟩
  intro a haa hb
  simp only [List.map_cons, List.map_nil, List.mem_singleton] at hb
  obtain ⟨q, hq, rfl⟩ := List.mem_map.1 haa
  exact hfresh q hq hb

theorem turnInv_join (s : GameState) (pseudo color : String) (g : Option Int) (fid : Nat)
    (hInv : TurnInv s) (hfresh : FreshPlayerId s fid) :
    TurnInv (applyJoin s pseudo color g fid) := by
  unfold applyJoin handleJoin
  split
  · exact hInv
  · rename_i hcond
    push_neg at hcond
    obtain ⟨hlen4, hlob⟩ := hcond
    cases ha : addPlayer s pseudo color g fid with
    | error m => exact hInv
    | ok pr =>
      obtain ⟨s2, p⟩ := pr
      show TurnInv s2
      unfold addPlayer at ha
      split at ha
      · cases ha
      · split at ha
        · cases ha
        · split at ha
          · cases ha
          · injection ha with ha
            injection ha with ha1 ha2
            subst ha1
            rw [applyGridSizeOverride_players, applyGridSizeOverride_gameStatus,
              applyGridSizeOverride_turn]
            split
            · rename_i hlenfull
              dsimp only at hlenfull
              refine ⟨?_, ?_, ?_⟩
              · dsimp only
                exact nodup_append_fresh s.players _ hInv.1 (fun q hq => hfresh q hq)
              · intro hh; cases hh
              · intro _
                have hsp : s.players ≠ [] := by
                  intro hnil
                  rw [hnil] at hlenfull
                  simp [MAX_PLAYERS] at hlenfull
                rcases hps : s.players with _ | ⟨p0, rest⟩
                · exact absurd hps hsp
                · refine ⟨p0, ?_, ?_, ?_⟩
                  · dsimp only
                    simp
                  · dsimp only
                    simp
                  · exact (hInv.2.1 hlob).2 p0 (by rw [hps]; simp)
            · refine ⟨?_, ?_, ?_⟩
              · dsimp only
                exact nodup_append_fresh s.players _ hInv.1 (fun q hq => hfresh q hq)
              · intro _
                refine ⟨(hInv.2.1 hlob).1, ?_⟩
                intro q hq
                rcases List.mem_append.1 hq with hq | hq
                · exact (hInv.2.1 hlob).2 q hq
                · rw [List.mem_singleton] at hq
                  rw [hq]
              · intro hip
                dsimp only at hip
                rw [hlob] at hip
                cases hip

theorem enum_positions_map_id (ps : List Player) (f : Nat → Option Pos) :
    ((ps.enum.map (fun ip => { ip.2 with position := f ip.1 })).map (fun p => p.id))
      = ps.map (fun p => p.id) := by
  rw [List.map_map]
  have hcomp : ((fun p : Player => p.id) ∘
      fun ip : Nat × Player => ({ ip.2 with position := f ip.1 } : Player))
      = (fun p : Player => p.id) ∘ Prod.snd := rfl
  rw [hcomp, ← List.map_map, List.enum_map_snd]

theorem mem_enum_positions (ps : List Player) (f : Nat → Option Pos) (x : Player)
    (hx : x ∈ ps.enum.map (fun ip => { ip.2 with position := f ip.1 })) :
    ∃ q ∈ ps, x.status = q.status := by
  obtain ⟨ip, hip, rfl⟩ := List.mem_map.1 hx
  refine ⟨ip.2, ?_, rfl⟩
  have hmem : ip.2 ∈ ps.enum.map Prod.snd := List.mem_map_of_mem Prod.snd hip
  rwa [List.enum_map_snd] at hmem

theorem turnInv_leave (s : GameState) (pid : Nat) (hInv : TurnInv s) :
    TurnInv (removePlayer s pid) := by
  unfold removePlayer
  cases hfi : findIndex (fun p => p.id == pid) s.players with
  | none => exact hInv
  | some index =>
    show TurnInv (match s.players.get? index with
      | none => s
      | some player => removePlayerAux s index player)
    cases hget : s.players.get? index with
    | none => exact hInv
    | some player =>
      show TurnInv (removePlayerAux s index player)
      have hnd' : ((s.players.eraseIdx index).map (fun p => p.id)).Nodup := by
        rw [map_eraseIdx]
        exact nodup_eraseIdx _ index hInv.1
      unfold removePlayerAux
      split
      · exact turnInv_initial _
      · split
        · rename_i hcond
          refine ⟨?_, ?_, ?_⟩
          · rw [checkVictory_players, advanceTurn_players]
            show ((markPlayerDefeatedL (s.players.eraseIdx index) player.id).map
              (fun p => p.id)).Nodup
            rw [markPlayerDefeatedL_map_id]
            exact hnd'
          · intro hlob
            refine absurd hlob (checkVictory_not_lobby _ (advanceTurn_not_lobby _ ?_))
            show s.gameStatus ≠ .Lobby
            rw [hcond.2]
            simp
          · intro hpro
            rcases checkVictory_cases
                (advanceTurn (markPlayerDefeated { s with players := s.players.eraseIdx index }
                  player.id)) with he | hf
            · rw [he] at hpro ⊢
              obtain ⟨p, hp, ht, hact⟩ := advanceTurn_inprogress_turn _ hpro
              exact ⟨p, by rw [advanceTurn_players]; exact hp, ht, hact⟩
            · rw [hpro] at hf
              cases hf
        · split
          · rename_i hcond1 hlobcond
            refine ⟨?_, ?_, ?_⟩
            · dsimp only
              rw [enum_positions_map_id]
              exact hnd'
            · intro _
              refine ⟨(hInv.2.1 hlobcond).1, ?_⟩
              intro x hx
              obtain ⟨q, hq, hstat⟩ := mem_enum_positions _ _ x hx
              rw [hstat]
              exact (hInv.2.1 hlobcond).2 q ((List.eraseIdx_sublist s.players index).subset hq)
            · intro hip
              dsimp only at hip
              rw [hlobcond] at hip
              cases hip
          · rename_i hcond1 hcond2
            refine ⟨hnd', ?_, ?_⟩
            · intro hlob
              exact absurd hlob hcond2
            · intro hip
              obtain ⟨q, hq, ht, hact⟩ := hInv.2.2 hip
              have hpl : player.status ≠ .Active := by
                intro hA
                exact hcond1 ⟨hA, hip⟩
              have hne : q ≠ player := by
                intro he
                exact hpl (he ▸ hact)
              exact ⟨q, mem_eraseIdx_of_ne s.players index player q hget hq hne, ht, hact⟩

theorem turnInv_reset (s : GameState) (hInv : TurnInv s) : TurnInv (applyReset s) := by
  unfold applyReset
  cases hr : handleResetGame s with
  | error m => exact hInv
  | ok s2 =>
    unfold handleResetGame at hr
    split at hr
    · cases hr
    · injection hr with hr
      rw [← hr]
      unfold resetGame
      exact turnInv_initial _

/-- Every reachable store satisfies the turn invariant. -/
theorem turnInv_reachable (s : GameState) (h : Reachable s) : TurnInv s := by
  induction h with
  | init => exact turnInv_initial _
  | join s pseudo color g fid _ hfresh ih => exact turnInv_join s pseudo color g fid ih hfresh
  | act s pid kind target fid _ _ ih => exact turnInv_requestAction s pid kind target fid ih
  | leave s pid _ ih => exact turnInv_leave s pid ih
  | reset s _ ih => exact turnInv_reset s ih

/-! ### Concrete demonstration states -/

/-- A full four-player game reached by four valid joins (ids 1 to 4); the
fourth join flips the status to InProgress with the turn on player 1. -/
def demo4 : GameState :=
  applyJoin (applyJoin (applyJoin (applyJoin (createInitialState (ALLOWED_GRID_SIZES.headD 0))
    "Alice" "#ff0000" none 1) "Bob" "#00ff00" none 2) "Cara" "#0000ff" none 3)
    "Dan" "#ffffff" none 4

/-- Players 2 and 4 leave `demo4`, then the turn holder (player 1) leaves: the
game finishes with the stale turn reference still pointing at player 1, who is
no longer in the players list. -/
def demoDangling : GameState := removePlayer (removePlayer (removePlayer demo4 2) 4) 1

/-! ### Claim theorems -/

/-- Claim C7, counterexample to the claim as stated: `demoDangling` is
reachable through the public operations, is Finished, yet `currentPlayerTurn`
is the id 1 of a player that is no longer present at all (so it is neither
none nor the id of an Active present player). -/
theorem c7_counterexample :
    Reachable demoDangling ∧
    demoDangling.gameStatus = .Finished ∧
    demoDangling.currentPlayerTurn = some 1 ∧
    ∀ p ∈ demoDangling.players, p.id ≠ 1 := by
  refine ⟨?_, by decide, by decide, by decide⟩
  exact Reachable.leave _ 1 (Reachable.leave _ 4 (Reachable.leave _ 2
    (Reachable.join _ "Dan" "#ffffff" none 4
      (Reachable.join _ "Cara" "#0000ff" none 3
        (Reachable.join _ "Bob" "#00ff00" none 2
          (Reachable.join _ "Alice" "#ff0000" none 1 Reachable.init (by decide))
          (by decide))
        (by decide))
      (by decide))))

/-- Claim C7 (amended): in every state reachable through the public operations
whose status is not Finished, `currentPlayerTurn` is either none or the id of
a player who is present in the players list and Active.  (Once the game is
Finished the reference is simply left at its previous value and may dangle.) -/
theorem c7_currentTurn_invariant (s : GameState) (hs : Reachable s)
    (hfin : s.gameStatus ≠ .Finished) :
    s.currentPlayerTurn = none ∨
      ∃ p ∈ s.players, s.currentPlayerTurn = some p.id ∧ p.status = .Active := by
  have hInv := turnInv_reachable s hs
  cases hst : s.gameStatus with
  | Lobby => exact Or.inl (hInv.2.1 hst).1
  | InProgress =>
    obtain ⟨p, hp, ht, ha⟩ := hInv.2.2 hst
    exact Or.inr ⟨p, hp, ht, ha⟩
  | Finished => exact absurd hst hfin

theorem c7_currentTurn_invariant_witness :
    (createInitialState (ALLOWED_GRID_SIZES.headD 0)).currentPlayerTurn = none ∨
      ∃ p ∈ (createInitialState (ALLOWED_GRID_SIZES.headD 0)).players,
        (createInitialState (ALLOWED_GRID_SIZES.headD 0)).currentPlayerTurn = some p.id ∧
        p.status = .Active :=
  c7_currentTurn_invariant _ Reachable.init (by decide)

/-- Claim C1: every action operation checks the shared preconditions first and
uniformly — game InProgress, caller holds the turn, caller exists and is
Active; any violation yields an action-invalid outcome with a reason and
leaves the store (in particular the turn) unchanged. -/
theorem c1_shared_preconditions (s : GameState) (pid : Nat) (kind : ActionKind)
    (target : Pos) (fid : Nat)
    (hviol : s.gameStatus ≠ .InProgress ∨ s.currentPlayerTurn ≠ some pid ∨
      s.players.find? (fun p => p.id == pid) = none ∨
      ∃ q, s.players.find? (fun p => p.id == pid) = some q ∧ q.status ≠ .Active) :
    (∃ msg, requestAction s pid kind target fid = .error msg) ∧
    applyAction s pid kind target fid = s := by
  have herr : ∃ msg, requestAction s pid kind target fid = .error msg := by
    unfold requestAction
    by_cases h1 : s.gameStatus ≠ .InProgress
    · rw [if_pos h1]; exact ⟨_, rfl⟩
    · rw [if_neg h1]
      by_cases h2 : s.currentPlayerTurn ≠ some pid
      · rw [if_pos h2]; exact ⟨_, rfl⟩
      · rw [if_neg h2]
        have hreq : requireActivePlayer s pid = .error "Joueur introuvable." ∨
            requireActivePlayer s pid = .error "Joueur déjà éliminé." := by
          rcases hviol with h | h | h | ⟨q, hq, hqs⟩
          · exact absurd h h1
          · exact absurd h h2
          · left; unfold requireActivePlayer; rw [h]
          · right; unfold requireActivePlayer; rw [hq]; simp [hqs]
        cases kind
        · unfold executeMove
          rcases hreq with hre | hre <;> rw [hre] <;> exact ⟨_, rfl⟩
        · unfold executeAttack
          rcases hreq with hre | hre <;> rw [hre] <;> exact ⟨_, rfl⟩
        · unfold executePlaceObstacle
          rcases hreq with hre | hre <;> rw [hre] <;> exact ⟨_, rfl⟩
  refine ⟨herr, ?_⟩
  obtain ⟨m, hm⟩ := herr
  unfold applyAction
  rw [hm]

theorem c1_shared_preconditions_witness :
    (∃ msg, requestAction demo4 2 .Move ⟨0, 0⟩ 99 = .error msg) ∧
    applyAction demo4 2 .Move ⟨0, 0⟩ 99 = demo4 :=
  c1_shared_preconditions demo4 2 .Move ⟨0, 0⟩ 99 (Or.inr (Or.inl (by decide)))

/-- Claim C2: reset while the game is not Finished fails and leaves the store
untouched; reset while Finished yields a fresh empty Lobby with the same grid
size (the `gridSize ≠ 0` hypothesis reflects the `||` fallback of
`resetGame`'s default argument, which no reachable store triggers since the
grid size is always from the allow-list). -/
theorem c2_reset (s : GameState) :
    (s.gameStatus ≠ .Finished →
      handleResetGame s = .error "Game is not finished yet." ∧ applyReset s = s) ∧
    (s.gameStatus = .Finished → s.gridSize ≠ 0 →
      handleResetGame s = .ok (createInitialState s.gridSize) ∧
      applyReset s = createInitialState s.gridSize) := by
  constructor
  · intro h
    have h1 : handleResetGame s = .error "Game is not finished yet." := by
      unfold handleResetGame; rw [if_pos h]
    exact ⟨h1, by unfold applyReset; rw [h1]⟩
  · intro h hg
    have h1 : handleResetGame s = .ok (createInitialState s.gridSize) := by
      unfold handleResetGame
      rw [if_neg (not_not_intro h)]
      unfold resetGame
      rw [if_neg hg]
    exact ⟨h1, by unfold applyReset; rw [h1]⟩

theorem c2_reset_witness :
    handleResetGame demoDangling = .ok (createInitialState demoDangling.gridSize) ∧
    applyReset demoDangling = createInitialState demoDangling.gridSize :=
  (c2_reset demoDangling).2 (by decide) (by decide)

/-- Claim C5: a join request is rejected (spectator) whenever the seat count
has reached the maximum or the game has left the Lobby, and rejected with an
invalid-outcome when the display name is empty/whitespace-only or the color
fails the strict hex validation. -/
theorem c5_join_rejections (s : GameState) (pseudo color : String) (g : Option Int) (fid : Nat) :
    (MAX_PLAYERS ≤ s.players.length ∨ s.gameStatus ≠ .Lobby →
      handleJoin s pseudo color g fid = (s, .spectator)) ∧
    (s.players.length < MAX_PLAYERS → s.gameStatus = .Lobby → (jsTrim pseudo).length = 0 →
      handleJoin s pseudo color g fid = (s, .invalid "Pseudo invalide.")) ∧
    (s.players.length < MAX_PLAYERS → s.gameStatus = .Lobby → (jsTrim pseudo).length ≠ 0 →
      normalizeColor color = none →
      handleJoin s pseudo color g fid = (s, .invalid "Couleur invalide.")) := by
  refine ⟨?_, ?_, ?_⟩
  · intro h
    unfold handleJoin
    rw [if_pos h]
  · intro hlen hlob hp
    unfold handleJoin
    rw [if_neg (by push_neg; exact ⟨hlen, hlob⟩)]
    unfold addPlayer
    rw [if_neg (Nat.not_le.2 hlen), if_pos hp]
  · intro hlen hlob hp hc
    unfold handleJoin
    rw [if_neg (by push_neg; exact ⟨hlen, hlob⟩)]
    unfold addPlayer
    rw [if_neg (Nat.not_le.2 hlen), if_neg hp, hc]

theorem c5_join_rejections_witness :
    handleJoin demo4 "Eve" "#123456" none 5 = (demo4, .spectator) :=
  (c5_join_rejections demo4 "Eve" "#123456" none 5).1 (by decide)

/-- Claim C9: victory evaluation counts the Active players; exactly one left
while InProgress finishes the game with that player as winner; zero left while
InProgress finishes with no winner; anything else leaves the store unchanged. -/
theorem c9_victory_evaluation (s : GameState) :
    ((s.players.filter (fun p => p.status == .Active)).length = 1 →
      s.gameStatus = .InProgress →
      ∃ a, s.players.filter (fun p => p.status == .Active) = [a] ∧
        checkVictory s = { s with
          gameStatus := .Finished
          winner := some a.pseudo
          winnerId := some a.id }) ∧
    ((s.players.filter (fun p => p.status == .Active)).length = 0 →
      s.gameStatus = .InProgress →
      checkVictory s = { s with gameStatus := .Finished, winner := none, winnerId := none }) ∧
    (2 ≤ (s.players.filter (fun p => p.status == .Active)).length ∨
      s.gameStatus ≠ .InProgress → checkVictory s = s) := by
  refine ⟨?_, ?_, ?_⟩
  · intro hl hst
    have ha : ∃ a, s.players.filter (fun p => p.status == .Active) = [a] := by
      match hfa : s.players.filter (fun p => p.status == .Active) with
      | [a] => exact ⟨a, hfa⟩
      | [] => rw [hfa] at hl; simp at hl
      | a :: b :: r => rw [hfa] at hl; simp at hl
    obtain ⟨a, ha⟩ := ha
    refine ⟨a, ha, ?_⟩
    unfold checkVictory
    rw [ha, hst]
  · intro hl hst
    have ha : s.players.filter (fun p => p.status == .Active) = [] :=
      List.length_eq_zero.1 hl
    unfold checkVictory
    rw [ha, hst]
  · intro h
    rcases h with h2 | hst
    · unfold checkVictory
      split
      · rename_i heq _
        rw [heq] at h2
        simp at h2
      · rename_i heq _
        rw [heq] at h2
        simp at h2
      · rfl
    · unfold checkVictory
      split
      · rename_i heq
        exact absurd heq hst
      · rename_i heq
        exact absurd heq hst
      · rfl

/-- A two-player state with one Active player, for the victory witness. -/
def sVictory : GameState :=
  { gameStatus := .InProgress, gridSize := 9
    players := [
      { id := 1, pseudo := "Alice", couleur := "#FF0000", pdv := 10,
        position := some ⟨0, 0⟩, obstaclesRestants := 3, status := .Active },
      { id := 2, pseudo := "Bob", couleur := "#00FF00", pdv := 0,
        position := none, obstaclesRestants := 3, status := .Defeated }]
    obstacles := [], currentPlayerTurn := some 1, winner := none, winnerId := none }

theorem c9_victory_evaluation_witness :
    ∃ a, sVictory.players.filter (fun p => p.status == .Active) = [a] ∧
      checkVictory sVictory = { sVictory with
        gameStatus := .Finished
        winner := some a.pseudo
        winnerId := some a.id } :=
  (c9_victory_evaluation sVictory).1 (by decide) (by decide)

/-- The first player of `sC6` (on turn, at the origin, obstacle stock spent). -/
def sC6player : Player :=
  { id := 1, pseudo := "Alice", couleur := "#FF0000", pdv := 10,
    position := some ⟨0, 0⟩, obstaclesRestants := 0, status := .Active }

/-- A full game where the turn holder has exhausted the obstacle stock. -/
def sC6 : GameState :=
  { gameStatus := .InProgress, gridSize := 9
    players := [sC6player,
      { id := 2, pseudo := "Bob", couleur := "#00FF00", pdv := 10,
        position := some ⟨8, 0⟩, obstaclesRestants := 3, status := .Active },
      { id := 3, pseudo := "Cara", couleur := "#0000FF", pdv := 10,
        position := some ⟨0, 8⟩, obstaclesRestants := 3, status := .Active },
      { id := 4, pseudo := "Dan", couleur := "#FFFFFF", pdv := 10,
        position := some ⟨8, 8⟩, obstaclesRestants := 3, status := .Active }]
    obstacles := [], currentPlayerTurn := some 1, winner := none, winnerId := none }

/-- Claim C6, counterexample: a PlaceObstacle request whose target is
in-bounds but NOT adjacent, issued by a player with empty stock, fails with
the stock reason — the code checks stock before adjacency, contradicting the
claimed bounds → geometry → occupancy/stock order. -/
theorem c6_counterexample :
    requestAction sC6 1 .PlaceObstacle ⟨5, 5⟩ 99 = .error "Plus d'obstacles disponibles." ∧
    isAdjacent ⟨0, 0⟩ ⟨5, 5⟩ = false ∧
    ensureTargetValid sC6 ⟨5, 5⟩ = .ok () ∧
    requireActivePlayer sC6 1 = .ok sC6player ∧
    sC6player.obstaclesRestants ≤ 0 ∧
    sC6player.position = some ⟨0, 0⟩ :=
  ⟨by decide, by decide, by decide, by decide, by decide, by decide⟩

/-- Claim C6 (amended): the checks run in a stable order, but for
PlaceObstacle that order is bounds, then stock, then adjacency, then
occupancy (stock strictly before geometry); Move and Attack check bounds
before everything else. -/
theorem c6_check_order (s : GameState) (pid fid : Nat) (target : Pos) (player : Player)
    (hprog : s.gameStatus = .InProgress)
    (hturn : s.currentPlayerTurn = some pid)
    (hreq : requireActivePlayer s pid = .ok player) :
    (∀ m, ensureTargetValid s target = .error m →
      requestAction s pid .PlaceObstacle target fid = .error m) ∧
    (ensureTargetValid s target = .ok () → player.obstaclesRestants ≤ 0 →
      requestAction s pid .PlaceObstacle target fid = .error "Plus d'obstacles disponibles.") ∧
    (∀ pos, ensureTargetValid s target = .ok () → 0 < player.obstaclesRestants →
      player.position = some pos → isAdjacent pos target = false →
      requestAction s pid .PlaceObstacle target fid = .error "La case doit être adjacente.") ∧
    (∀ pos, ensureTargetValid s target = .ok () → 0 < player.obstaclesRestants →
      player.position = some pos → isAdjacent pos target = true → isOccupied s target = true →
      requestAction s pid .PlaceObstacle target fid = .error "Case déjà occupée.") ∧
    (∀ m, ensureTargetValid s target = .error m →
      requestAction s pid .Move target fid = .error m) ∧
    (∀ m, ensureTargetValid s target = .error m →
      requestAction s pid .Attack target fid = .error m) := by
  have hg1 : ¬s.gameStatus ≠ .InProgress := not_not_intro hprog
  have hg2 : ¬s.currentPlayerTurn ≠ some pid := not_not_intro hturn
  refine ⟨?_, ?_, ?_, ?_, ?_, ?_⟩
  · intro m hb
    unfold requestAction
    rw [if_neg hg1, if_neg hg2]
    simp only [executePlaceObstacle, hreq, hb]
  · intro hb hstock
    unfold requestAction
    rw [if_neg hg1, if_neg hg2]
    simp only [executePlaceObstacle, hreq, hb]
    rw [if_pos hstock]
  · intro pos hb hstock hpos hadj
    unfold requestAction
    rw [if_neg hg1, if_neg hg2]
    simp only [executePlaceObstacle, hreq, hb, hpos]
    rw [if_neg (by omega)]
    simp [hadj]
  · intro pos hb hstock hpos hadj hocc
    unfold requestAction
    rw [if_neg hg1, if_neg hg2]
    simp only [executePlaceObstacle, hreq, hb, hpos]
    rw [if_neg (by omega)]
    simp [hadj, hocc]
  · intro m hb
    unfold requestAction
    rw [if_neg hg1, if_neg hg2]
    simp only [executeMove, hreq, hb]
  · intro m hb
    unfold requestAction
    rw [if_neg hg1, if_neg hg2]
    simp only [executeAttack, hreq, hb]

theorem c6_check_order_witness :
    requestAction sC6 1 .PlaceObstacle ⟨9, 0⟩ 99 = .error "Case hors limites." :=
  (c6_check_order sC6 1 99 ⟨9, 0⟩ sC6player (by decide) (by decide) (by decide)).1
    "Case hors limites." (by decide)

theorem checkVictory_eq_self_of_two (s : GameState)
    (h2 : 2 ≤ (s.players.filter (fun p => p.status == .Active)).length) :
    checkVictory s = s := by
  unfold checkVictory
  split
  · rename_i heq _
    rw [heq] at h2
    simp at h2
  · rename_i heq _
    rw [heq] at h2
    simp at h2
  · rfl

/-- Claim C10: when the turn holder leaves an in-progress game and at least
two Active players remain afterwards, the new turn holder is the earliest
Active player in the remaining join order — the scan restarts from the front
of the players list (JavaScript `findIndex` returned `-1`), not from the
leaver's old seat. -/
theorem c10_leaver_turn_restart (s : GameState) (pid : Nat) (index : Nat)
    (leaver q : Player)
    (hfi : findIndex (fun p => p.id == pid) s.players = some index)
    (hget : s.players.get? index = some leaver)
    (hact : leaver.status = .Active)
    (hprog : s.gameStatus = .InProgress)
    (hturn : s.currentPlayerTurn = some pid)
    (hnotin : ∀ p ∈ s.players.eraseIdx index, p.id ≠ pid)
    (h2 : 2 ≤ ((s.players.eraseIdx index).filter (fun p => p.status == .Active)).length)
    (hfind : (s.players.eraseIdx index).find? (fun p => p.status == .Active) = some q) :
    (removePlayer s pid).players = s.players.eraseIdx index ∧
    (removePlayer s pid).currentPlayerTurn = some q.id := by
  have hlenf := List.length_filter_le (fun p => p.status == .Active) (s.players.eraseIdx index)
  have hlen0 : ¬((s.players.eraseIdx index).length = 0) := by omega
  have hlid : leaver.id = pid := by
    obtain ⟨e, hgete, hfinde⟩ := findIndex_get? (fun p => p.id == pid) s.players index hfi
    rw [hget] at hgete
    injection hgete with he
    have := List.find?_some hfinde
    rw [← he] at this
    simpa using this
  have hmark : markPlayerDefeatedL (s.players.eraseIdx index) leaver.id
      = s.players.eraseIdx index := by
    unfold markPlayerDefeatedL
    apply updateFirst_of_forall_not
    intro x hx
    have hxid := hnotin x hx
    rw [hlid]
    simp [hxid]
  have ht0 : markPlayerDefeated { s with players := s.players.eraseIdx index } leaver.id
      = { s with players := s.players.eraseIdx index } := by
    unfold markPlayerDefeated
    dsimp only
    rw [hmark]
  have hidx : currentTurnIndex { s with players := s.players.eraseIdx index } = -1 := by
    unfold currentTurnIndex
    dsimp only
    have hnone : findIndex (fun p => some p.id == s.currentPlayerTurn)
        (s.players.eraseIdx index) = none := by
      rw [findIndex_eq_none_iff]
      intro x hx
      rw [hturn]
      have hxid := hnotin x hx
      simp [hxid]
    rw [hnone]
  obtain ⟨j, hj, hgetj⟩ := find?_findIndex _ _ q hfind
  have hmain : removePlayer s pid = { { s with players := s.players.eraseIdx index } with
      currentPlayerTurn := some q.id } := by
    simp only [removePlayer, hfi, hget]
    unfold removePlayerAux
    rw [if_neg hlen0, if_pos ⟨hact, hprog⟩, ht0]
    unfold advanceTurn
    rw [if_neg (by dsimp only; rw [hprog]; simp), if_neg (by dsimp only; omega), hidx]
    have em1 : (-1 : Int) = ((0 : Nat) : Int) - 1 := by norm_num
    try dsimp only
    rw [em1, scanActive_linear _ _ 0 (by omega), List.drop_zero, List.take_length, hj]
    simp only [Option.map_some', Nat.add_zero]
    rw [checkVictory_eq_self_of_two _ (by exact h2)]
    try dsimp only
    rw [hgetj]
    rfl
  rw [hmain]
  exact ⟨rfl, rfl⟩

/-- The record player 1 of `demo4` evaluates to. -/
def demo4Alice : Player :=
  { id := 1, pseudo := "Alice", couleur := "#FF0000", pdv := 10,
    position := some ⟨0, 0⟩, obstaclesRestants := 3, status := .Active }

/-- The record player 2 of `demo4` evaluates to. -/
def demo4Bob : Player :=
  { id := 2, pseudo := "Bob", couleur := "#00FF00", pdv := 10,
    position := some ⟨8, 0⟩, obstaclesRestants := 3, status := .Active }

theorem c10_leaver_turn_restart_witness :
    (removePlayer demo4 1).players = demo4.players.eraseIdx 0 ∧
    (removePlayer demo4 1).currentPlayerTurn = some demo4Bob.id :=
  c10_leaver_turn_restart demo4 1 0 demo4Alice demo4Bob (by decide) (by decide) (by decide)
    (by decide) (by decide) (by decide) (by decide) (by decide)

/-! ### Totality of the straight-line path scan -/

theorem isPathClearGo_reaches_vertical (s : GameState) (b : Pos) (dy : Int) :
    ∀ fuel (y : Int) (k : Nat), b.y - y = k * dy → k < fuel →
      isPathClearGo s b ⟨0, dy⟩ fuel ⟨b.x, y⟩ ≠ none
  | 0, y, k, hk, hfuel => by omega
  | fuel + 1, y, k, hk, hfuel => by
    by_cases hyt : y = b.y
    · have hb : (⟨b.x, y⟩ : Pos) = b := by
        cases b
        simp [hyt]
      simp [isPathClearGo, hb]
    · have hb : ((⟨b.x, y⟩ : Pos) == b) = false := by
        simp only [beq_eq_false_iff_ne, ne_eq]
        intro he
        cases b
        simp only [Pos.mk.injEq] at he
        exact hyt he.2
      simp only [isPathClearGo, hb, Bool.false_eq_true, if_false]
      split
      · simp
      · have hk0 : k ≠ 0 := by
          intro h0
          rw [h0] at hk
          simp at hk
          omega
        obtain ⟨k', rfl⟩ : ∃ k', k = k' + 1 := ⟨k - 1, by omega⟩
        have hcur : (⟨b.x + 0, y + dy⟩ : Pos) = ⟨b.x, y + dy⟩ := by simp
        rw [hcur]
        apply isPathClearGo_reaches_vertical s b dy fuel (y + dy) k'
        · calc b.y - (y + dy) = (b.y - y) - dy := by ring
          _ = ((k' + 1 : Nat) : Int) * dy - dy := by rw [hk]
          _ = (k' : Int) * dy := by push_cast; ring
        · omega

theorem isPathClearGo_reaches_horizontal (s : GameState) (b : Pos) (dx : Int) :
    ∀ fuel (x : Int) (k : Nat), b.x - x = k * dx → k < fuel →
      isPathClearGo s b ⟨dx, 0⟩ fuel ⟨x, b.y⟩ ≠ none
  | 0, x, k, hk, hfuel => by omega
  | fuel + 1, x, k, hk, hfuel => by
    by_cases hxt : x = b.x
    · have hb : (⟨x, b.y⟩ : Pos) = b := by
        cases b
        simp [hxt]
      simp [isPathClearGo, hb]
    · have hb : ((⟨x, b.y⟩ : Pos) == b) = false := by
        simp only [beq_eq_false_iff_ne, ne_eq]
        intro he
        cases b
        simp only [Pos.mk.injEq] at he
        exact hxt he.1
      simp only [isPathClearGo, hb, Bool.false_eq_true, if_false]
      split
      · simp
      · have hk0 : k ≠ 0 := by
          intro h0
          rw [h0] at hk
          simp at hk
          omega
        obtain ⟨k', rfl⟩ : ∃ k', k = k' + 1 := ⟨k - 1, by omega⟩
        have hcur : (⟨x + dx, b.y + 0⟩ : Pos) = ⟨x + dx, b.y⟩ := by simp
        rw [hcur]
        apply isPathClearGo_reaches_horizontal s b dx fuel (x + dx) k'
        · calc b.x - (x + dx) = (b.x - x) - dx := by ring
          _ = ((k' + 1 : Nat) : Int) * dx - dx := by rw [hk]
          _ = (k' : Int) * dx := by push_cast; ring
        · omega

/-- On a straight line the path scan always resolves within its budget: the
`while` loop of `isPathClear` terminates for every straight-line query. -/
theorem isPathClear_isSome_of_straight (s : GameState) (a b : Pos)
    (h : isStraightLine a b = true) : (isPathClear s a b).isSome := by
  unfold isStraightLine at h
  rw [Bool.or_eq_true] at h
  unfold isPathClear
  rw [Option.isSome_iff_ne_none]
  rcases h with h | h
  · rw [beq_iff_eq] at h
    have hdx : (b.x - a.x).sign = 0 := by rw [h]; simp
    rw [hdx]
    dsimp only
    have hcur : (⟨a.x + 0, a.y + (b.y - a.y).sign⟩ : Pos) = ⟨b.x, a.y + (b.y - a.y).sign⟩ := by
      simp [h]
    rw [hcur]
    have hdist : (distance a b).toNat = (b.y - a.y).natAbs := by
      unfold distance
      rw [h]
      simp only [sub_self, abs_zero, zero_add, abs_sub_comm a.y b.y]
      rw [Int.abs_eq_natAbs, Int.toNat_natCast]
    rw [hdist]
    by_cases hy : b.y = a.y
    · apply isPathClearGo_reaches_vertical s b ((b.y - a.y).sign) _ (a.y + (b.y - a.y).sign) 0
      · rw [hy]; simp
      · omega
    · apply isPathClearGo_reaches_vertical s b ((b.y - a.y).sign) _ (a.y + (b.y - a.y).sign)
        ((b.y - a.y).natAbs - 1)
      · have hsign : (b.y - a.y).sign * ((b.y - a.y).natAbs : Int) = b.y - a.y :=
          Int.sign_mul_natAbs (b.y - a.y)
        have hposn : 1 ≤ (b.y - a.y).natAbs := Int.natAbs_pos.2 (by omega)
        rw [Nat.cast_sub hposn, Nat.cast_one, sub_mul, one_mul, mul_comm, hsign]
        ring
      · omega
  · rw [beq_iff_eq] at h
    have hdy : (b.y - a.y).sign = 0 := by rw [h]; simp
    rw [hdy]
    dsimp only
    have hcur : (⟨a.x + (b.x - a.x).sign, a.y + 0⟩ : Pos)
        = ⟨a.x + (b.x - a.x).sign, b.y⟩ := by
      simp [h]
    rw [hcur]
    have hdist : (distance a b).toNat = (b.x - a.x).natAbs := by
      unfold distance
      rw [h]
      simp only [sub_self, abs_zero, add_zero, abs_sub_comm a.x b.x]
      rw [Int.abs_eq_natAbs, Int.toNat_natCast]
    rw [hdist]
    by_cases hx : b.x = a.x
    · apply isPathClearGo_reaches_horizontal s b ((b.x - a.x).sign) _ (a.x + (b.x - a.x).sign) 0
      · rw [hx]; simp
      · omega
    · apply isPathClearGo_reaches_horizontal s b ((b.x - a.x).sign) _ (a.x + (b.x - a.x).sign)
        ((b.x - a.x).natAbs - 1)
      · have hsign : (b.x - a.x).sign * ((b.x - a.x).natAbs : Int) = b.x - a.x :=
          Int.sign_mul_natAbs (b.x - a.x)
        have hposn : 1 ≤ (b.x - a.x).natAbs := Int.natAbs_pos.2 (by omega)
        rw [Nat.cast_sub hposn, Nat.cast_one, sub_mul, one_mul, mul_comm, hsign]
        ring
      · omega

theorem requireActivePlayer_ok (s : GameState) (pid : Nat) (player : Player)
    (h : requireActivePlayer s pid = .ok player) :
    s.players.find? (fun p => p.id == pid) = some player ∧ player.status = .Active := by
  unfold requireActivePlayer at h
  split at h
  · cases h
  · rename_i q hq
    split at h
    · cases h
    · rename_i hst
      injection h with h
      subst h
      push_neg at hst
      exact ⟨hq, hst⟩

/-- Claim C4: for a Move with an in-bounds target (shared preconditions held),
a non-straight target fails; a distance of 0 or above `MOVE_RANGE` fails; a
blocked path (occupied cell between the position, exclusive, and the target,
inclusive) fails; otherwise the move succeeds and the player's position
becomes the target.  (`0 < player.pdv` holds for every Active player of a
reachable store; distinct ids are the `randomUUID` guarantee.) -/
theorem c4_move_legality (s : GameState) (pid fid : Nat) (target : Pos)
    (player : Player) (pos : Pos)
    (hprog : s.gameStatus = .InProgress)
    (hturn : s.currentPlayerTurn = some pid)
    (hreq : requireActivePlayer s pid = .ok player)
    (hpos : player.position = some pos)
    (hpdv : 0 < player.pdv)
    (hnodup : (s.players.map (fun p => p.id)).Nodup)
    (hbounds : ensureTargetValid s target = .ok ()) :
    (isStraightLine pos target = false →
      requestAction s pid .Move target fid = .error "Le déplacement doit être en ligne droite.") ∧
    (isStraightLine pos target = true →
      (distance pos target = 0 ∨ MOVE_RANGE < distance pos target) →
      requestAction s pid .Move target fid = .error "La distance maximale est de 3 cases.") ∧
    (isStraightLine pos target = true →
      ¬(distance pos target = 0 ∨ MOVE_RANGE < distance pos target) →
      isPathClear s pos target = some false →
      requestAction s pid .Move target fid = .error "Trajet bloqué par un joueur ou un obstacle.") ∧
    (isStraightLine pos target = true →
      ¬(distance pos target = 0 ∨ MOVE_RANGE < distance pos target) →
      isPathClear s pos target = some true →
      ∃ s', requestAction s pid .Move target fid = .ok s' ∧
        (s'.players.find? (fun p => p.id == pid)).map (fun p => p.position)
          = some (some target)) := by
  have hg1 : ¬s.gameStatus ≠ .InProgress := not_not_intro hprog
  have hg2 : ¬s.currentPlayerTurn ≠ some pid := not_not_intro hturn
  obtain ⟨hfind, hactive⟩ := requireActivePlayer_ok s pid player hreq
  have hpid : player.id = pid := by
    have := List.find?_some hfind
    simpa using this
  subst hpid
  refine ⟨?_, ?_, ?_, ?_⟩
  · intro hline
    unfold requestAction
    rw [if_neg hg1, if_neg hg2]
    simp only [executeMove, hreq, hbounds, hpos, hline, Bool.not_false, if_true]
  · intro hline hdist
    unfold requestAction
    rw [if_neg hg1, if_neg hg2]
    simp only [executeMove, hreq, hbounds, hpos, hline, Bool.not_true, Bool.false_eq_true,
      if_false]
    rw [if_pos hdist]
  · intro hline hdist hpath
    unfold requestAction
    rw [if_neg hg1, if_neg hg2]
    simp only [executeMove, hreq, hbounds, hpos, hline, Bool.not_true, Bool.false_eq_true,
      if_false]
    rw [if_neg hdist, hpath]
  · intro hline hdist hpath
    unfold requestAction
    rw [if_neg hg1, if_neg hg2]
    simp only [executeMove, hreq, hbounds, hpos, hline, Bool.not_true, Bool.false_eq_true,
      if_false]
    rw [if_neg hdist, hpath]
    refine ⟨_, rfl, ?_⟩
    rw [advanceTurn_players]
    unfold cleanupAfterAction
    rw [checkVictory_players]
    dsimp only
    have hfind1 : (updateFirst (fun p => p.id == player.id)
        (fun p => { p with position := some target }) s.players).find?
          (fun p => p.id == player.id)
        = some { player with position := some target } := by
      rw [find?_updateFirst_same_key (fun p : Player => p.id) player.id
        (fun p : Player => { p with position := some target }) (fun x => rfl) s.players,
        hfind]
      rfl
    have hnodup1 : ((updateFirst (fun p => p.id == player.id)
        (fun p => { p with position := some target }) s.players).map (fun p => p.id)).Nodup := by
      rw [map_updateFirst (fun p : Player => p.id) _
        (fun p : Player => { p with position := some target }) (fun x => rfl)]
      exact hnodup
    have hprot : ∀ q ∈ (updateFirst (fun p => p.id == player.id)
        (fun p => { p with position := some target }) s.players), q.pdv ≤ 0 →
        q.id ≠ player.id := by
      intro q hq hqp hqid
      have hq2 := eq_of_find?_key_nodup (fun p : Player => p.id) _ hnodup1
        { player with position := some target } hfind1 q hq hqid
      rw [hq2] at hqp
      dsimp only at hqp
      omega
    rw [cleanupFold_find_of_protected player.id _ _ hprot, hfind1]
    rfl

theorem c4_move_legality_witness :
    ∃ s', requestAction demo4 1 .Move ⟨0, 3⟩ 99 = .ok s' ∧
      (s'.players.find? (fun p => p.id == 1)).map (fun p => p.position)
        = some (some ⟨0, 3⟩) :=
  (c4_move_legality demo4 1 99 ⟨0, 3⟩ demo4Alice ⟨0, 0⟩ (by decide) (by decide) (by decide)
    (by decide) (by decide) (by decide) (by decide)).2.2.2 (by decide) (by decide) (by decide)

/-! ### Soundness of the attack ray scan -/

/-- If the ray scan reports a player hit, that player is the first Active
player of some scanned cell (in particular a real entry of the store). -/
theorem findFirstEntityGo_player_sound (s : GameState) (start target d : Pos) :
    ∀ (fuel : Nat) (p : Pos) (pl : Player),
      findFirstEntityGo s start target d fuel p = some (some (.player pl)) →
      ∃ cell, getPlayerAt s cell = some pl
  | 0, p, pl, h => by simp [findFirstEntityGo] at h
  | fuel + 1, p, pl, h => by
    simp only [findFirstEntityGo] at h
    split at h
    · split at h
      · rename_i pl2 hp
        simp only [Option.some.injEq, Hit.player.injEq] at h
        subst h
        exact ⟨p, hp⟩
      · rename_i hp
        split at h
        · simp at h
        · split at h
          · simp at h
          · exact findFirstEntityGo_player_sound s start target d fuel _ pl h
    · simp at h

/-- If the ray scan reports an obstacle hit, that obstacle is the first
obstacle of some scanned cell. -/
theorem findFirstEntityGo_obstacle_sound (s : GameState) (start target d : Pos) :
    ∀ (fuel : Nat) (p : Pos) (ob : Obstacle),
      findFirstEntityGo s start target d fuel p = some (some (.obstacle ob)) →
      ∃ cell, getObstacleAt s cell = some ob
  | 0, p, ob, h => by simp [findFirstEntityGo] at h
  | fuel + 1, p, ob, h => by
    simp only [findFirstEntityGo] at h
    split at h
    · split at h
      · simp at h
      · rename_i hp
        split at h
        · rename_i ob2 ho
          simp only [Option.some.injEq, Hit.obstacle.injEq] at h
          subst h
          exact ⟨p, ho⟩
        · split at h
          · simp at h
          · exact findFirstEntityGo_obstacle_sound s start target d fuel _ ob h
    · simp at h

/-- `ATTACK_COST` is zero, so the caster's self-cost step of `executeAttack`
leaves the player list unchanged (the caster has positive hp, so the
self-defeat branch is not taken either). -/
theorem attack_selfcost_eq (s : GameState) (pid : Nat) (player : Player)
    (hpdv : 0 < player.pdv) :
    (if player.pdv - ATTACK_COST ≤ 0 then
        markPlayerDefeatedL (updateFirst (fun p => p.id == pid)
          (fun p => { p with pdv := p.pdv - ATTACK_COST }) s.players) pid
      else updateFirst (fun p => p.id == pid)
        (fun p => { p with pdv := p.pdv - ATTACK_COST }) s.players) = s.players := by
  have hid : updateFirst (fun p => p.id == pid)
      (fun p => { p with pdv := p.pdv - ATTACK_COST }) s.players = s.players := by
    refine updateFirst_eq_self _ _ (fun x => ?_) s.players
    have hx : x.pdv - ATTACK_COST = x.pdv := by simp [ATTACK_COST]
    rw [hx]
  rw [hid, if_neg (by simp only [ATTACK_COST]; omega)]

/-- Claim C3: for an Attack whose shared and geometric preconditions hold, the
struck entity is the first entity along the ray (the `findFirstEntity` scan):
an empty ray fails with the no-target reason; a named target cell holding a
different entity than the hit fails with the blocked reason; otherwise the hit
entity — a real player or obstacle of the store — loses `ATTACK_DAMAGE` hp
(an obstacle dropping to 0 is removed).  (`0 < player.pdv` holds for every
Active player of a reachable store; distinct ids are the `randomUUID`
guarantee.) -/
theorem c3_attack_ray (s : GameState) (pid fid : Nat) (target : Pos)
    (player : Player) (pos : Pos)
    (hprog : s.gameStatus = .InProgress)
    (hturn : s.currentPlayerTurn = some pid)
    (hreq : requireActivePlayer s pid = .ok player)
    (hpos : player.position = some pos)
    (hpdv : 0 < player.pdv)
    (hnodupP : (s.players.map (fun p => p.id)).Nodup)
    (hnodupO : (s.obstacles.map (fun o => o.id)).Nodup)
    (hbounds : ensureTargetValid s target = .ok ())
    (hline : isStraightLine pos target = true)
    (hdist : ¬(distance pos target = 0 ∨ ATTACK_RANGE < distance pos target)) :
    (findFirstEntity s pos target = some none →
      requestAction s pid .Attack target fid = .error "Aucune cible dans cette direction.") ∧
    (∀ hit, findFirstEntity s pos target = some (some hit) →
      (explicitTargetId s target).isSome ∧ explicitTargetId s target ≠ some hit.entityId →
      requestAction s pid .Attack target fid = .error "Une entité bloque votre attaque.") ∧
    (∀ pl, findFirstEntity s pos target = some (some (.player pl)) →
      ¬((explicitTargetId s target).isSome ∧ explicitTargetId s target ≠ some pl.id) →
      (∃ cell, getPlayerAt s cell = some pl) ∧
      ∃ s', requestAction s pid .Attack target fid = .ok s' ∧
        (s'.players.find? (fun q => q.id == pl.id)).map (fun q => q.pdv)
          = some (pl.pdv - ATTACK_DAMAGE)) ∧
    (∀ ob, findFirstEntity s pos target = some (some (.obstacle ob)) →
      ¬((explicitTargetId s target).isSome ∧ explicitTargetId s target ≠ some ob.id) →
      (∃ cell, getObstacleAt s cell = some ob) ∧
      ∃ s', requestAction s pid .Attack target fid = .ok s' ∧
        (ob.pdv - ATTACK_DAMAGE ≤ 0 →
          s'.obstacles.find? (fun o => o.id == ob.id) = none) ∧
        (0 < ob.pdv - ATTACK_DAMAGE →
          (s'.obstacles.find? (fun o => o.id == ob.id)).map (fun o => o.pdv)
            = some (ob.pdv - ATTACK_DAMAGE))) := by
  have hg1 : ¬s.gameStatus ≠ .InProgress := not_not_intro hprog
  have hg2 : ¬s.currentPlayerTurn ≠ some pid := not_not_intro hturn
  refine ⟨?_, ?_, ?_, ?_⟩
  · intro hnone
    unfold requestAction
    rw [if_neg hg1, if_neg hg2]
    simp only [executeAttack, hreq, hbounds, hpos, hline, Bool.not_true, Bool.false_eq_true,
      if_false]
    rw [if_neg hdist, hnone]
  · intro hit hhit hblk
    unfold requestAction
    rw [if_neg hg1, if_neg hg2]
    simp only [executeAttack, hreq, hbounds, hpos, hline, Bool.not_true, Bool.false_eq_true,
      if_false]
    rw [if_neg hdist]
    simp only [hhit]
    rw [if_pos hblk]
  · intro pl hhit hnb
    obtain ⟨cell, hcell⟩ := findFirstEntityGo_player_sound s pos target _ _ _ pl hhit
    refine ⟨⟨cell, hcell⟩, ?_⟩
    have hplpos : pl.position = some cell := by
      have h1 := List.find?_some hcell
      simp only [Bool.and_eq_true, beq_iff_eq] at h1
      exact h1.2
    unfold requestAction
    rw [if_neg hg1, if_neg hg2]
    simp only [executeAttack, hreq, hbounds, hpos, hline, Bool.not_true, Bool.false_eq_true,
      if_false]
    rw [if_neg hdist]
    simp only [hhit, Hit.entityId]
    rw [if_neg hnb]
    refine ⟨_, rfl, ?_⟩
    rw [advanceTurn_players, attack_selfcost_eq s pid player hpdv]
    simp only [attackApplyHit]
    unfold cleanupAfterAction
    rw [checkVictory_players]
    dsimp only
    rw [cleanupFold_find_pdv pl.id _ _]
    by_cases hdead : pl.pdv - ATTACK_DAMAGE ≤ 0
    · rw [if_pos hdead, markPlayerDefeatedL_find_pdv, hplpos,
        find?_key_updateFirst (fun p : Player => p.id)
          (fun q : Player => q.status == .Active && q.position == some cell)
          (fun q : Player => { q with pdv := q.pdv - ATTACK_DAMAGE }) (fun x => rfl)
          s.players hnodupP pl hcell]
      rfl
    · rw [if_neg hdead, hplpos,
        find?_key_updateFirst (fun p : Player => p.id)
          (fun q : Player => q.status == .Active && q.position == some cell)
          (fun q : Player => { q with pdv := q.pdv - ATTACK_DAMAGE }) (fun x => rfl)
          s.players hnodupP pl hcell]
      rfl
  · intro ob hhit hnb
    obtain ⟨cell, hcell⟩ := findFirstEntityGo_obstacle_sound s pos target _ _ _ ob hhit
    refine ⟨⟨cell, hcell⟩, ?_⟩
    have hobpos : ob.position = cell := by
      have h1 := List.find?_some hcell
      simpa using h1
    unfold requestAction
    rw [if_neg hg1, if_neg hg2]
    simp only [executeAttack, hreq, hbounds, hpos, hline, Bool.not_true, Bool.false_eq_true,
      if_false]
    rw [if_neg hdist]
    simp only [hhit, Hit.entityId]
    rw [if_neg hnb]
    refine ⟨_, rfl, ?_, ?_⟩
    · intro hdead
      rw [advanceTurn_obstacles, cleanupAfterAction_obstacles]
      simp only [attackApplyHit]
      rw [if_pos hdead]
      apply find?_filter_of_none
      rw [List.find?_eq_none]
      intro x hx
      have hxm := List.of_mem_filter hx
      simpa using hxm
    · intro halive
      rw [advanceTurn_obstacles, cleanupAfterAction_obstacles]
      simp only [attackApplyHit]
      rw [if_neg (by omega : ¬ob.pdv - ATTACK_DAMAGE ≤ 0), hobpos]
      have hfind := find?_key_updateFirst (fun o : Obstacle => o.id)
        (fun o : Obstacle => o.position == cell)
        (fun o : Obstacle => { o with pdv := o.pdv - ATTACK_DAMAGE }) (fun x => rfl)
        s.obstacles hnodupO ob hcell
      rw [find?_filter_of_find? _ _ _ _ hfind (decide_eq_true halive)]
      rfl

/-- An in-progress two-player state realising the spec's reference scenario:
the attacker at the origin, an opponent two cells below, an obstacle between
them. -/
def sC3 : GameState :=
  { gameStatus := .InProgress, gridSize := 9
    players := [
      { id := 1, pseudo := "Alice", couleur := "#FF0000", pdv := 10,
        position := some ⟨0, 0⟩, obstaclesRestants := 3, status := .Active },
      { id := 2, pseudo := "Bob", couleur := "#00FF00", pdv := 10,
        position := some ⟨0, 2⟩, obstaclesRestants := 3, status := .Active }]
    obstacles := [{ id := 50, position := ⟨0, 1⟩, pdv := 2, ownerId := 2 }]
    currentPlayerTurn := some 1, winner := none, winnerId := none }

/-- The record player 1 of `sC3` evaluates to. -/
def sC3Alice : Player :=
  { id := 1, pseudo := "Alice", couleur := "#FF0000", pdv := 10,
    position := some ⟨0, 0⟩, obstaclesRestants := 3, status := .Active }

theorem c3_attack_ray_witness :
    requestAction sC3 1 .Attack ⟨0, 2⟩ 99 = .error "Une entité bloque votre attaque." :=
  (c3_attack_ray sC3 1 99 ⟨0, 2⟩ sC3Alice ⟨0, 0⟩ (by decide) (by decide) (by decide)
    (by decide) (by decide) (by decide) (by decide) (by decide) (by decide)
    (by decide)).2.1 (.obstacle ⟨50, ⟨0, 1⟩, 2, 2⟩) (by decide) (by decide)

/-! ### Divergence of the path scan on fractional coordinates -/

/-- With no occupied cells and unit step `⟨1, 0⟩`, once the cursor is strictly
to the right of the target the scan never stops, whatever its budget. -/
theorem isPathClearQGo_empty_none (target : QPos) :
    ∀ (fuel : Nat) (p : QPos), target.x < p.x →
      isPathClearQGo (fun _ => false) target ⟨1, 0⟩ fuel p = none
  | 0, _, _ => rfl
  | fuel + 1, p, hp => by
    have hne : (p == target) = false := by
      simp only [beq_eq_false_iff_ne, ne_eq]
      intro he
      rw [he] at hp
      exact lt_irrefl _ hp
    simp only [isPathClearQGo, hne, Bool.false_eq_true, if_false]
    exact isPathClearQGo_empty_none target fuel ⟨p.x + 1, p.y + 0⟩ (by dsimp only; linarith)

/-- Claim C8, refuted: the spatial queries are NOT total on every input the
validation accepts.  The target `(0.5, 0)`, requested from `(0, 0)` on an
empty 9×9 grid, passes `ensureTargetValid` (the `typeof` check accepts every
number and the bounds hold), is a straight line, and has a positive distance
within `MOVE_RANGE`, yet the `while` loop of `isPathClear` never terminates:
the cursor jumps from `x = 0` to `x = 1` in unit steps and never equals
`x = 0.5`, so no step budget ever suffices. -/
theorem c8_pathclear_diverges :
    ensureTargetValidQ 9 ⟨1/2, 0⟩ = true ∧
    isStraightLineQ ⟨0, 0⟩ ⟨1/2, 0⟩ = true ∧
    distanceQ ⟨0, 0⟩ ⟨1/2, 0⟩ ≠ 0 ∧
    distanceQ ⟨0, 0⟩ ⟨1/2, 0⟩ ≤ (MOVE_RANGE : ℚ) ∧
    ∀ fuel, isPathClearQ (fun _ => false) ⟨0, 0⟩ ⟨1/2, 0⟩ fuel = none := by
  have hd : distanceQ ⟨0, 0⟩ ⟨1/2, 0⟩ = 1/2 := by
    unfold distanceQ
    dsimp only
    rw [sub_self, abs_zero, add_zero, show ((0 : ℚ) - 1/2) = -(1/2) by ring, abs_neg]
    exact abs_of_pos (by norm_num)
  refine ⟨?_, ?_, ?_, ?_, ?_⟩
  · unfold ensureTargetValidQ
    dsimp only
    norm_num
  · unfold isStraightLineQ
    dsimp only
    simp
  · rw [hd]
    norm_num
  · rw [hd]
    norm_num [MOVE_RANGE]
  · intro fuel
    have hq : isPathClearQ (fun _ => false) ⟨0, 0⟩ ⟨1/2, 0⟩ fuel
        = isPathClearQGo (fun _ => false) ⟨1/2, 0⟩ ⟨1, 0⟩ fuel ⟨1, 0⟩ := by
      unfold isPathClearQ qsign
      norm_num
    rw [hq]
    apply isPathClearQGo_empty_none
    norm_num

end Jeu
